import Mathlib

/-!
# Verification of the scaffold configuration compiler

A shallow embedding, in Lean 4, of the configuration-loading core of the
scaffold repository (`src/scaffold/config.py`), together with theorems that
settle the spec claims about it.

Conventions of the embedding:
* Parsed JSON documents are `JValue` trees; Python dictionaries are
  insertion-ordered association lists manipulated through `dictGet`/`dictSet`,
  which mirror Python's `d[k]` lookup and `d[k] = v` update semantics.
* Python floats are modelled as exact rationals `ℚ`; the floating-point cube
  root `pow(x, 1/3)` used by `finalize_layers` is abstracted as an explicit
  function parameter `cbrt`.
* Fallible Python code (raising exceptions) is modelled with
  `Except PyError`; distinct Python exception classes get distinct
  constructors so that theorems can tell a `ConfigurationException` from a
  `NameError` or a `ZeroDivisionError`.
* `helpers.py` and `models.py` are imported by `config.py` but are not part
  of the sources; the definitions taken from them are marked
  `Modelled from the spec:` and follow the spec's description.
-/

/- The Batteries rational-number operations are `@[irreducible]`, which
blocks `decide`/`rfl` evaluation of the embedding on concrete inputs;
restore the default reducibility so concrete runs compute. -/
attribute [local semireducible] Rat.add Rat.mul Rat.sub Rat.inv

/-- A parsed JSON document node, as produced by `json.loads`: objects keep
their key insertion order. -/
inductive JValue where
  | null
  | bool (b : Bool)
  | num (q : ℚ)
  | str (s : String)
  | arr (elems : List JValue)
  | obj (fields : List (String × JValue))
deriving Repr

/-- Python dictionary lookup `d[k]` on an insertion-ordered association list:
the first binding of the key wins. -/
def dictGet {κ β : Type} [DecidableEq κ] (d : List (κ × β)) (k : κ) : Option β :=
  match d with
  | [] => none
  | (k2, v) :: rest => if k2 = k then some v else dictGet rest k

/-- Python dictionary update `d[k] = v`: an existing binding is overwritten in
place, a new key is appended at the end. -/
def dictSet {κ β : Type} [DecidableEq κ] (d : List (κ × β)) (k : κ) (v : β) :
    List (κ × β) :=
  match d with
  | [] => [(k, v)]
  | (k2, v2) :: rest => if k2 = k then (k2, v) :: rest else (k2, v2) :: dictSet rest k v

/-- Lookup of a key inside a JSON object (`section[key]` / `key in section`). -/
def JValue.get? : JValue → String → Option JValue
  | .obj fields, k => dictGet fields k
  | _, _ => none

/-- Python's `key in section` membership test. -/
def JValue.hasKey (j : JValue) (k : String) : Bool :=
  (j.get? k).isSome

/-- The Python exceptions raised by the configuration compiler, one
constructor per exception class. -/
inductive PyError where
  | configurationException (msg : String)
  | exception (msg : String)
  | keyError (key : String)
  | nameError (ident : String)
  | typeError (msg : String)
  | valueError (msg : String)
  | indexError (msg : String)
  | zeroDivisionError
deriving Repr, DecidableEq

/-- Digits-only string-to-natural parser used to model Python numeric string
coercion on unsigned decimal literals. -/
def decimalDigits? (cs : List Char) : Option ℕ :=
  match cs with
  | [] => none
  | _ =>
    cs.foldl
      (fun acc c =>
        acc.bind (fun n => if c.isDigit then some (10 * n + (c.toNat - 48)) else none))
      (some 0)

/-- Python `float(value)` coercion on a JSON value. String coercion is
modelled for unsigned decimal integer literals, which is all the claims
exercise; other strings fail as in Python. -/
def pyFloat : JValue → Except PyError ℚ
  | .num q => .ok q
  | .bool b => .ok (if b then 1 else 0)
  | .str s =>
    match decimalDigits? s.toList with
    | some n => .ok (n : ℚ)
    | none => .error (.valueError "could not convert string to float")
  | _ => .error (.typeError "float() argument must be a string or a number")

/-- Python `int(value)` coercion on a JSON value (truncation toward zero on
non-integral numbers, as `int()` does on floats). -/
def pyInt : JValue → Except PyError ℤ
  | .num q => .ok (q.num / (q.den : ℤ))
  | .bool b => .ok (if b then 1 else 0)
  | .str s =>
    match decimalDigits? s.toList with
    | some n => .ok (n : ℤ)
    | none => .error (.valueError "invalid literal for int()")
  | _ => .error (.typeError "int() argument must be a string or a number")

/-- A numeric operand of an arithmetic operation: Python raises `TypeError`
when a non-number reaches `+`, `*` or `/`. -/
def expectNum : JValue → Except PyError ℚ
  | .num q => .ok q
  | .bool b => .ok (if b then 1 else 0)
  | _ => .error (.typeError "unsupported operand type")

/-- A 3-component vector of exact rationals standing for the Python 3-lists
and numpy arrays holding origins and dimensions. -/
structure Vec3 where
  x : ℚ
  y : ℚ
  z : ℚ
deriving Repr, DecidableEq

/-- Modelled from the spec: the `Layer` entity of `models.py` (not under
`src/`): a name, a 3D origin, 3D dimensions, and the flags `scaling`
(follows volume resizing) and `xz_center` (auto-centers on the X/Z plane). -/
structure Layer where
  name : String
  origin : Vec3
  dimensions : Vec3
  scaling : Bool := true
  xz_center : Bool := false
deriving Repr, DecidableEq

/-- Modelled from the spec: a layer's thickness is its Y dimension. -/
def Layer.thickness (l : Layer) : ℚ := l.dimensions.y

/-- Modelled from the spec: a layer's volume is the product of its
dimensions. -/
def Layer.volume (l : Layer) : ℚ :=
  l.dimensions.x * l.dimensions.y * l.dimensions.z

/-- A stack being accumulated in `_layer_stacks` while the layers collection
is loaded: a dict from integer slot to layer name plus the optional raw base
position taken verbatim from the configuration. -/
structure StackRec where
  layers : List (ℚ × String) := []
  position : Option JValue := none
deriving Repr

/-- The part of the configuration object state that the layer pipeline and
the resize operation read and write: the simulation volume extents, the
layers dict and the `_layer_stacks` dict. -/
structure LayersState where
  X : ℚ
  Z : ℚ
  layers : List (String × Layer) := []
  layer_stacks : List (ℤ × StackRec) := []
deriving Repr

/-- The scale factor `new / current` computed by `resize` together with the
new extent; skipping the axis when no new extent is given. Dividing by a zero
current extent raises `ZeroDivisionError` exactly as in Python. -/
def scaleFactor (cur : ℚ) : Option ℚ → Except PyError (ℚ × ℚ)
  | none => .ok (1, cur)
  | some v => if cur = 0 then .error .zeroDivisionError else .ok (v / cur, v)

/-- The per-layer body of the resize loop: multiply a `scaling` layer's X/Z
dimensions by the scale factors, then recenter an `xz_center` layer on the
new footprint (config.py lines 304-310). -/
def resizeLayer (sx sz X2 Z2 : ℚ) (l : Layer) : Layer :=
  let l :=
    if l.scaling then
      { l with dimensions := ⟨l.dimensions.x * sx, l.dimensions.y, l.dimensions.z * sz⟩ }
    else l
  if l.xz_center then
    { l with origin := ⟨X2 / 2 - l.dimensions.x / 2, l.origin.y, Z2 / 2 - l.dimensions.z / 2⟩ }
  else l

/-- `ScaffoldConfig.resize` (config.py lines 281-310): rescale the simulation
volume and rewrite every layer with `resizeLayer`. -/
def resize (s : LayersState) (Xnew Znew : Option ℚ) : Except PyError LayersState := do
  let (sx, X2) ← scaleFactor s.X Xnew
  let (sz, Z2) ← scaleFactor s.Z Znew
  .ok { s with X := X2, Z := Z2,
               layers := s.layers.map (fun p => (p.1, resizeLayer sx sz X2 Z2 p.2)) }

/-- The stack-registration block of `JSONConfig.init_layer` (config.py lines
604-633): parse the `stack` block of a layer section and record the layer
into the shared `_layer_stacks` dict under its declared slot, adopting an
explicit stack `position` unless one is already recorded. Slots are modelled
as numbers (the spec's integer slots). The updated record is written back on
success, which is observably identical to Python's in-place mutation because
a raised exception aborts the whole load. -/
def register_stack (stks : List (ℤ × StackRec)) (name : String) (config : JValue) :
    Except PyError (List (ℤ × StackRec)) :=
  match config.get? "stack" with
  | none => .ok stks
  | some stack_config =>
    match stack_config.get? "stack_id" with
    | none =>
      .error (.exception
        ("A \x27stack_id\x27 attribute is required in \x27" ++ name ++ ".stack\x27."))
    | some sidv => do
      let sid ← pyInt sidv
      let st := (dictGet stks sid).getD ⟨[], none⟩
      match stack_config.get? "position_in_stack" with
      | none =>
        .error (.exception
          ("A \x27position_in_stack\x27 attribute is required in \x27" ++ name ++ ".stack\x27."))
      | some slotv => do
        let slot ← expectNum slotv
        let st := { st with layers := dictSet st.layers slot name }
        let st ← match stack_config.get? "position" with
          | none => pure st
          | some p =>
            if st.position.isSome then
              .error (.exception
                ("Duplicate positioning attribute found for stack with id \x27"
                  ++ toString sid ++ "\x27"))
            else
              pure { st with position := some p }
        .ok (dictSet stks sid st)

/-- Parse the layer `position` attribute: a list of floats of length exactly
3, defaulting to the origin (config.py lines 592-602). -/
def parsePosition (name : String) : Option JValue → Except PyError Vec3
  | none => .ok ⟨0, 0, 0⟩
  | some (.arr elems) => do
    let coords ← elems.mapM pyFloat
    match coords with
    | [a, b, c] => .ok ⟨a, b, c⟩
    | _ => .error (.exception ("Invalid position given in config \x27" ++ name ++ "\x27"))
  | some _ => .error (.typeError "position is not iterable")

/-- Parse the `xz_scale` attribute: either a 2-element list of floats or a
single float broadcast to both axes (config.py lines 635-650). -/
def parseXzScale : Option JValue → Except PyError (ℚ × ℚ)
  | none => .ok (1, 1)
  | some (.arr elems) => do
    let a ← match elems.get? 0 with
      | some v => pyFloat v
      | none => .error (.indexError "list index out of range")
    let b ← match elems.get? 1 with
      | some v => pyFloat v
      | none => .error (.indexError "list index out of range")
    .ok (a, b)
  | some v =>
    match pyFloat v with
    | .ok q => .ok (q, q)
    | .error _ => .error (.exception "Could not convert xz_scale value to a float.")

/-- `JSONConfig.init_layer` (config.py lines 570-661): require a thickness or
a volume-scale constraint, parse the optional position, register any stack
membership, compute the dimensions from the simulation volume and the
`xz_scale` factors, optionally recenter on the X/Z plane, and add the layer
to the layers dict. The new layer's `scaling` flag is the `Layer` model
default (models.py is not under `src/`). -/
def init_layer (s : LayersState) (name : String) (config : JValue) :
    Except PyError LayersState := do
  if !config.hasKey "thickness" && !config.hasKey "volume_scale" then
    .error (.configurationException
      ("Either a thickness attribute or volume_scale required in " ++ name ++ " config."))
  else do
    let thickness ← match config.get? "thickness" with
      | some v => pyFloat v
      | none => pure (0 : ℚ)
    let origin ← parsePosition name (config.get? "position")
    let stks ← register_stack s.layer_stacks name config
    let scales ← parseXzScale (config.get? "xz_scale")
    let dimensions : Vec3 := ⟨s.X * scales.1, thickness, s.Z * scales.2⟩
    let centered := match config.get? "xz_center" with
      | some (.bool true) => true
      | _ => false
    let origin := if centered then
        ⟨(s.X - dimensions.x) / 2, origin.y, (s.Z - dimensions.z) / 2⟩
      else origin
    let layer : Layer := { name := name, origin := origin, dimensions := dimensions,
                           xz_center := centered }
    .ok { s with layer_stacks := stks, layers := dictSet s.layers name layer }

/-- The init loop of `load_attr` specialised to the layers collection
(config.py lines 529-530 with `init = init_layer`): fold `init_layer` over
the entries of the `layers` section in document order. -/
def init_layers_pass (s : LayersState) (entries : List (String × JValue)) :
    Except PyError LayersState :=
  entries.foldlM (fun st p => init_layer st p.1 p.2) s

/-- One call made by `load_attr` to one of its callbacks. -/
inductive LoadEvent where
  | initCall (name : String)
  | finalizeEachCall (name : String)
  | finalizeAllCall
deriving Repr, DecidableEq

/-- `JSONConfig.load_attr` (config.py lines 493-535): drive the two-phase
init/finalize protocol over the sub-collection found at `attr` of `config`.
The single Python `final` callable, invoked either with zero or with two
arguments depending on `single`, is rendered as the two typed parameters
`finalAll` and `finalEach`; `none` stands for Python's `final=None`. -/
def load_attr (σ : Type) (config : JValue) (attr : String) (node_name : Option String)
    (initf : String → JValue → σ → Except PyError σ)
    (finalEach : Option (String → JValue → σ → Except PyError σ))
    (finalAll : Option (σ → Except PyError σ))
    (single : Bool) (s : σ) : Except PyError σ :=
  match config.get? attr with
  | none =>
    .error (.exception
      ("Missing \x27" ++ attr ++ "\x27 attribute in " ++ node_name.getD "configuration" ++ "."))
  | some (.obj entries) => do
    let s ← entries.foldlM (fun st p => initf p.1 p.2 st) s
    if single then
      match finalAll with
      | some f => f s
      | none => .ok s
    else
      match finalEach with
      | some f => entries.foldlM (fun st p => f p.1 p.2 st) s
      | none => .ok s
  | some _ => .error (.typeError "attribute value has no items()")

/-- Modelled from the spec: `assert_attr` of `helpers.py` (not under `src/`):
require a key in a section, failing with a `ConfigurationException` that
names the node path when it is missing. -/
def assert_attr (sect : JValue) (attr : String) (node : String) :
    Except PyError JValue :=
  match sect.get? attr with
  | some v => .ok v
  | none =>
    .error (.configurationException
      ("Required attribute " ++ attr ++ " missing in " ++ node ++ "."))

/-- Modelled from the spec: `assert_float` of `helpers.py` (not under
`src/`): cast a value to float, failing with a `ConfigurationException`
naming the node when the value is not coercible. -/
def assert_float (v : JValue) (node : String) : Except PyError ℚ :=
  match pyFloat v with
  | .ok q => .ok q
  | .error _ =>
    .error (.configurationException ("Invalid float value for " ++ node ++ "."))

/-- Modelled from the spec: `assert_attr_float` of `helpers.py` (not under
`src/`): require a key and cast its value to float. -/
def assert_attr_float (sect : JValue) (attr : String) (node : String) :
    Except PyError ℚ := do
  let v ← assert_attr sect attr node
  assert_float v (node ++ "." ++ attr)

/-- Modelled from the spec: `assert_strictly_one` of `helpers.py` (not under
`src/`): exactly one of the given attributes must be present in the section;
return that attribute and its value, failing with a `ConfigurationException`
when none or more than one is present. -/
def assert_strictly_one (sect : JValue) (attrs : List String) (node : String) :
    Except PyError (String × JValue) :=
  match attrs.filter (fun a => sect.hasKey a) with
  | [a] => .ok (a, (sect.get? a).getD .null)
  | _ =>
    .error (.configurationException
      ("Exactly one of " ++ String.intercalate ", " attrs ++ " required in " ++ node ++ "."))

/-- A configured placement-strategy instance: its attribute store
(`__dict__`), filled by `load_configurable_class`, `init_placement` and
`fill_configurable_class`. -/
structure Placement where
  attrs : List (String × JValue)
deriving Repr

/-- `ScaffoldConfig.fill_configurable_class` (config.py lines 365-381): copy
every key of the configuration section that is not excluded verbatim onto
the object's attribute store. -/
def fill_configurable_class (attrs : List (String × JValue))
    (conf : List (String × JValue)) (excluded : List String) :
    List (String × JValue) :=
  match conf with
  | [] => attrs
  | p :: rest =>
    fill_configurable_class (if p.1 ∈ excluded then attrs else dictSet attrs p.1 p.2)
      rest excluded

/-- The five mutually exclusive density-mode attributes of a placement
section, in the order `init_placement` passes them to `assert_strictly_one`
(config.py lines 729-736). -/
def densityAttrs : List String :=
  ["density", "planar_density", "placement_count_ratio", "density_ratio", "count"]

/-- The leading steps of `JSONConfig.init_placement` (config.py lines
701-725): resolve the placement class, require the target layer, and require
a numeric soma radius (aliased onto `radius`) unless the strategy is an
entity placement. The dynamic class resolution of `load_configurable_class`
is abstracted by `known_classes` (the resolvable qualified names) and
`is_entities` (the loaded strategy's `is_entities()` answer). -/
def init_placement_pre (known_classes : List String) (is_entities : Bool)
    (sect : JValue) (cell_type_name : String) :
    Except PyError (List (String × JValue)) := do
  let node := "cell_types." ++ cell_type_name ++ ".placement"
  let pclass ← assert_attr sect "class" node
  let cname ← match pclass with
    | .str s => pure s
    | _ => Except.error (.typeError "class name must be a string")
  if !known_classes.contains cname then
    .error (.exception
      ("Couldn\x27t find class \x27" ++ cname ++ "\x27 specified in \x27" ++ node ++ "\x27"))
  else do
    let attrs0 : List (String × JValue) :=
      [("name", .str (cell_type_name ++ "_placement"))]
    let layerv ← assert_attr sect "layer" node
    let attrs1 := dictSet attrs0 "layer" layerv
    if is_entities then pure attrs1 else do
      let sr ← assert_attr_float sect "soma_radius" node
      pure (dictSet (dictSet attrs1 "soma_radius" (.num sr)) "radius" (.num sr))

/-- The density-mode steps of `init_placement` (config.py lines 726-746):
exactly one density attribute, float-cast and stored, with the ratio modes
additionally requiring `placement_relative_to`. -/
def init_placement_density (sect : JValue) (node : String)
    (attrs : List (String × JValue)) :
    Except PyError (List (String × JValue)) := do
  let dm ← assert_strictly_one sect densityAttrs node
  let dv ← assert_float dm.2 (node ++ "." ++ dm.1)
  let attrs3 := dictSet attrs dm.1 (.num dv)
  if dm.1 = "placement_count_ratio" ∨ dm.1 = "density_ratio" then do
    let rel ← assert_attr sect "placement_relative_to" node
    pure (dictSet attrs3 "placement_relative_to" rel)
  else pure attrs3

/-- The reserved keys `init_placement` passes to `fill_configurable_class`
(config.py lines 752-760): note that `count` is not among them. -/
def placementExcluded : List String :=
  ["class", "layer", "soma_radius", "density", "planar_density",
   "placement_count_ratio", "density_ratio"]

/-- `JSONConfig.init_placement` assembled from its stages (config.py lines
701-765). -/
def init_placement (known_classes : List String) (is_entities : Bool)
    (sect : JValue) (cell_type_name : String) : Except PyError Placement := do
  let node := "cell_types." ++ cell_type_name ++ ".placement"
  let attrs2 ← init_placement_pre known_classes is_entities sect cell_type_name
  let attrs4 ← init_placement_density sect node attrs2
  let conf := match sect with
    | .obj fields => fields
    | _ => []
  let attrs5 := fill_configurable_class attrs4 conf placementExcluded
  .ok ⟨attrs5⟩

/-- A connection type as left by `init_connection` (config.py lines
677-699): the raw `from_cell_types`/`to_cell_types` reference arrays stored
for deferred resolution. -/
structure ConnectionRec where
  name : String
  from_cell_types : List JValue
  to_cell_types : List JValue
deriving Repr

/-- The loop of `finalize_connection` over one direction's raw references:
resolve each reference's `type` against the declared cell type names,
collecting compartments with the given default (config.py lines 933-947 and
948-960). `node_name` is the (unformatted) template the source put in its
messages and `side` is `"from_cell_types"` or `"to_cell_types"`. -/
def resolve_cell_types (node_name side : String) (cell_types : List String)
    (default_compartments : JValue) (i : ℕ) :
    List JValue → Except PyError (List (String × JValue))
  | [] => .ok []
  | connected_cell :: rest => do
    let tv ← assert_attr connected_cell "type" (node_name ++ "." ++ toString i)
    let t ← match tv with
      | .str s => pure s
      | _ => Except.error (.typeError "unhashable type name")
    if !cell_types.contains t then
      .error (.exception
        ("Unknown cell type \x27" ++ t ++ "\x27 in \x27" ++ node_name ++ "." ++ side ++ "\x27"))
    else do
      let comp := (connected_cell.get? "compartments").getD default_compartments
      let others ← resolve_cell_types node_name side cell_types default_compartments (i + 1) rest
      .ok ((t, comp) :: others)

/-- `JSONConfig.finalize_connection` (config.py lines 926-964): resolve both
reference arrays of a connection type against the declared cell type names.
Note that the source sets `node_name` to the literal template
`"connection_types.\x7b\x7d"` and never formats the connection name into it
(unlike `init_connection`, line 683), so that literal is what reaches every
message this function raises. -/
def finalize_connection (conn : ConnectionRec) (cell_types : List String) :
    Except PyError (List (String × JValue) × List (String × JValue)) := do
  let node_name := "connection_types.\x7b\x7d"
  let froms ← resolve_cell_types node_name "from_cell_types" cell_types
    (.arr [.str "axon"]) 0 conn.from_cell_types
  let tos ← resolve_cell_types node_name "to_cell_types" cell_types
    (.arr [.str "dendrites"]) 0 conn.to_cell_types
  .ok (froms, tos)

/-- The string elements of a JSON array, in order. -/
def expectStrs : List JValue → Except PyError (List String)
  | [] => .ok []
  | .str s :: rest => do
    let others ← expectStrs rest
    .ok (s :: others)
  | _ :: _ => .error (.typeError "reference layer name is not a string")

/-- The reference names of a `scale_from_layers` array (Python iterates the
raw list and uses each element as a layers-dict key). -/
def expectStrList : JValue → Except PyError (List String)
  | .arr elems => expectStrs elems
  | _ => .error (.typeError "scale_from_layers is not iterable")

/-- The numeric elements of a JSON array, in order. -/
def expectNums : List JValue → Except PyError (List ℚ)
  | [] => .ok []
  | e :: rest => do
    let q ← expectNum e
    let others ← expectNums rest
    .ok (q :: others)

/-- The numeric entries of a `volume_dimension_ratio` array. -/
def expectNumList : JValue → Except PyError (List ℚ)
  | .arr elems => expectNums elems
  | _ => .error (.typeError "volume_dimension_ratio is not a list")

/-- `np.sum` of the volumes of the referenced layers, looked up in the
current layers dict (config.py lines 869-871). -/
def refVolumes (layers : List (String × Layer)) : List String → Except PyError ℚ
  | [] => .ok 0
  | r :: rest =>
    match dictGet layers r with
    | none => .error (.keyError r)
    | some l => do
      let v ← refVolumes layers rest
      .ok (l.volume + v)

/-- The dimension computation of the volume-scale pass of
`JSONConfig.finalize_layers` (config.py lines 862-907): normalize the ratio
vector to its Y component, sum the referenced layers' volumes, and produce
`Y * normalized_ratios` with `Y` the cube root of
`volume_reference_layers / (volume_scale * prod normalized_ratios)`. The
floating-point cube root `pow(x, 1/3)` of line 900 is the parameter `cbrt`.
When `scale_from_layers` is missing the source raises `NameError`, not the
intended `ConfigurationException`: the message built at lines 856-861
formats the variable `name`, which is bound nowhere in `finalize_layers`
(the loop variable is `layer`), so Python fails while building it. -/
def scaled_dimensions (cbrt : ℚ → ℚ) (config : JValue)
    (layers : List (String × Layer)) : Except PyError Vec3 := do
  let refs ← expectStrList ((config.get? "scale_from_layers").getD .null)
  let ratios ← match config.get? "volume_dimension_ratio" with
    | none => pure [(1 : ℚ), 1, 1]
    | some v => expectNumList v
  let r1 ← match ratios.get? 1 with
    | some r => pure r
    | none => Except.error (.indexError "list index out of range")
  let normalized := ratios.map (fun r => r / r1)
  let vrl ← refVolumes layers refs
  let vs ← expectNum ((config.get? "volume_scale").getD .null)
  let y := cbrt (vrl / (vs * normalized.prod))
  match normalized with
  | [n0, n1, n2] => .ok ⟨y * n0, y * n1, y * n2⟩
  | _ => .error (.valueError "operands could not be broadcast together")

/-- The branch structure of the volume-scale body: skip layers without a
`volume_scale`, raise the (mis-built, see above) missing-`scale_from_layers`
error, otherwise store the recomputed dimensions. -/
def scale_layer_body (cbrt : ℚ → ℚ) (layers : List (String × Layer))
    (lname : String) (layer : Layer) (config : JValue) :
    Except PyError (List (String × Layer)) :=
  if !config.hasKey "volume_scale" then .ok layers
  else if !config.hasKey "scale_from_layers" then .error (.nameError "name")
  else do
    let d ← scaled_dimensions cbrt config layers
    .ok (dictSet layers lname { layer with dimensions := d })

/-- One iteration of the volume-scale loop for the named layer. -/
def scale_layer (cbrt : ℚ → ℚ) (parsed : List (String × JValue))
    (layers : List (String × Layer)) (lname : String) :
    Except PyError (List (String × Layer)) :=
  match dictGet layers lname with
  | none => .error (.keyError lname)
  | some layer =>
    match dictGet parsed lname with
    | none => .error (.keyError lname)
    | some config => scale_layer_body cbrt layers lname layer config

/-- The volume-scale pass of `JSONConfig.finalize_layers` (config.py lines
851-907): apply `scale_layer` to every layer in insertion order, threading
the dict so that a reference to an earlier-scaled layer sees its updated
volume, exactly as the Python loop mutates shared `Layer` objects. -/
def volume_scale_pass (cbrt : ℚ → ℚ) (parsed : List (String × JValue))
    (s : LayersState) : Except PyError LayersState := do
  let layers ← (s.layers.map (fun p => p.1)).foldlM
    (fun ls n => scale_layer cbrt parsed ls n) s.layers
  .ok { s with layers := layers }

/-- The stack base height read by the stack pass — `stack["position"][1]` —
with the position defaulting to the origin when no explicit stack position
was recorded (config.py lines 910-913). -/
def parse_stack_base_y : Option JValue → Except PyError ℚ
  | none => .ok 0
  | some (.arr elems) =>
    match elems.get? 1 with
    | some e => expectNum e
    | none => .error (.indexError "list index out of range")
  | some _ => .error (.typeError "position is not subscriptable")

/-- The layer names of a stack in ascending slot order — Python's
`sorted(stack["layers"].items())` (config.py line 914). `sorted` compares
the (slot, name) pairs lexicographically; slots are unique within a stack's
dict, so comparing slots alone is equivalent, and `insertionSort` shares
`sorted`'s stability. -/
def sortedStackNames (st : StackRec) : List String :=
  (List.insertionSort (fun a b : ℚ × String => a.1 ≤ b.1) st.layers).map (fun p => p.2)

/-- `layer.origin[1] = stack_roof` (config.py line 917): overwrite only the
vertical component of a layer's origin. -/
def setOriginY (l : Layer) (r : ℚ) : Layer :=
  { l with origin := ⟨l.origin.x, r, l.origin.z⟩ }

/-- The body of the stack pass (config.py lines 914-918): place each named
layer's vertical origin at the current roof height and advance the roof by
that layer's thickness. -/
def place_loop (layers : List (String × Layer)) (roof : ℚ) :
    List String → Except PyError (List (String × Layer))
  | [] => .ok layers
  | n :: ns =>
    match dictGet layers n with
    | none => .error (.keyError n)
    | some l =>
      place_loop (dictSet layers n (setOriginY l roof)) (roof + l.dimensions.y) ns

/-- Placement of one stack (config.py lines 910-918). -/
def place_stack (layers : List (String × Layer)) (st : StackRec) :
    Except PyError (List (String × Layer)) := do
  let roof ← parse_stack_base_y st.position
  place_loop layers roof (sortedStackNames st)

/-- The stack phase of `JSONConfig.finalize_layers` (config.py lines
909-918): place every stack's layers bottom-to-top from the stack's base
height. The write-back of a defaulted stack `position` (line 911) is never
read again and is not tracked. -/
def stack_pass (s : LayersState) : Except PyError LayersState := do
  let layers ← s.layer_stacks.foldlM (fun ls p => place_stack ls p.2) s.layers
  .ok { s with layers := layers }

/-- `JSONConfig.finalize_layers` (config.py lines 850-918): the volume-scale
pass over every layer in insertion order, then the stack-placement pass over
every stack. `parsed` is `self._parsed_config["layers"]`. -/
def finalize_layers (cbrt : ℚ → ℚ) (parsed : List (String × JValue))
    (s : LayersState) : Except PyError LayersState := do
  let s1 ← volume_scale_pass cbrt parsed s
  stack_pass s1

/-- Look up the (origin.y, thickness) pairs of the named layers, in order;
`none` when any name is missing. -/
def lookupProfile (layers : List (String × Layer)) :
    List String → Option (List (ℚ × ℚ))
  | [] => some []
  | n :: ns =>
    match dictGet layers n with
    | none => none
    | some l => (lookupProfile layers ns).map (fun rest => (l.origin.y, l.dimensions.y) :: rest)

/-- The (origin.y, thickness) profile of a stack's layers in ascending slot
order, read off a layers dict. -/
def stackProfile (layers : List (String × Layer)) (st : StackRec) :
    Option (List (ℚ × ℚ)) :=
  lookupProfile layers (sortedStackNames st)

/-- The profile the stack pass produces: origins climb from the base height
by each layer's thickness. -/
def roofProfile (roof : ℚ) : List ℚ → List (ℚ × ℚ)
  | [] => []
  | t :: ts => (roof, t) :: roofProfile (roof + t) ts

/-- Every layer name registered in any stack, in stack-then-insertion
order. -/
def stackedNames (stks : List (ℤ × StackRec)) : List String :=
  (stks.map (fun p => p.2.layers.map (fun q => q.2))).flatten

/-- Everything of a layer except the Y component of its origin: the stack
pass may change nothing else. -/
def layerSans (l : Layer) : String × ℚ × ℚ × Vec3 × Bool × Bool :=
  (l.name, l.origin.x, l.origin.z, l.dimensions, l.scaling, l.xz_center)

/-- Everything of a layer except its dimensions: the volume-scale pass may
change nothing else. -/
def layerSansDims (l : Layer) : String × Vec3 × Bool × Bool :=
  (l.name, l.origin, l.scaling, l.xz_center)

/-! Concrete configurations used to exercise the embedding. -/

/-- A 50 µm granular layer at the origin of a 200×200 volume. -/
def layerGran : Layer :=
  { name := "gran", origin := ⟨0, 0, 0⟩, dimensions := ⟨200, 50, 200⟩ }

/-- A 30 µm Purkinje layer at the origin of a 200×200 volume. -/
def layerPurk : Layer :=
  { name := "purk", origin := ⟨0, 0, 0⟩, dimensions := ⟨200, 30, 200⟩ }

/-- A stack holding `gran` at slot 0 and `purk` at slot 1, with no explicit
base position. -/
def stackGP : StackRec := ⟨[(0, "gran"), (1, "purk")], none⟩

/-- A state with the two stacked layers above. -/
def stateGP : LayersState :=
  { X := 200, Z := 200, layers := [("gran", layerGran), ("purk", layerPurk)],
    layer_stacks := [(1, stackGP)] }

/-- The parsed `layers` section matching `stateGP`. -/
def parsedGP : List (String × JValue) :=
  [("gran", .obj [("thickness", .num 50)]), ("purk", .obj [("thickness", .num 30)])]

/-- `stateGP` after `finalize_layers`: `purk` sits on top of `gran`. -/
def stateGP' : LayersState :=
  { X := 200, Z := 200,
    layers := [("gran", layerGran), ("purk", { layerPurk with origin := ⟨0, 50, 0⟩ })],
    layer_stacks := [(1, stackGP)] }

/-- A layer whose configured thickness is negative — nothing in the loader
rejects it. -/
def layerNegA : Layer :=
  { name := "na", origin := ⟨0, 0, 0⟩, dimensions := ⟨200, -1, 200⟩ }

/-- A second, positive-thickness layer stacked above the negative one. -/
def layerNegB : Layer :=
  { name := "nb", origin := ⟨0, 0, 0⟩, dimensions := ⟨200, 1, 200⟩ }

/-- The stack holding `na` below `nb`. -/
def stackNeg : StackRec := ⟨[(0, "na"), (1, "nb")], none⟩

/-- A loaded state containing a negative-thickness stacked layer. -/
def stateNeg : LayersState :=
  { X := 200, Z := 200, layers := [("na", layerNegA), ("nb", layerNegB)],
    layer_stacks := [(1, stackNeg)] }

/-- The parsed `layers` section matching `stateNeg`. -/
def parsedNeg : List (String × JValue) :=
  [("na", .obj [("thickness", .num (-1))]), ("nb", .obj [("thickness", .num 1)])]

/-- A reference layer of volume 16 for the volume-scale scenario. -/
def layerRefA : Layer :=
  { name := "A", origin := ⟨0, 0, 0⟩, dimensions := ⟨2, 2, 4⟩ }

/-- The layer to be sized from `A`'s volume. -/
def layerScaledB : Layer :=
  { name := "B", origin := ⟨0, 0, 0⟩, dimensions := ⟨200, 0, 200⟩ }

/-- The layers dict for the volume-scale scenario. -/
def layersVS : List (String × Layer) := [("A", layerRefA), ("B", layerScaledB)]

/-- The parsed section giving `B` a `volume_scale` of 2 from `A`. -/
def parsedVS : List (String × JValue) :=
  [("B", .obj [("volume_scale", .num 2), ("scale_from_layers", .arr [.str "A"]),
               ("volume_dimension_ratio", .arr [.num 1, .num 1, .num 1])])]

/-- A connection type whose `from_cell_types` references an undeclared cell
type. -/
def connPfGoc : ConnectionRec :=
  ⟨"pf_goc", [.obj [("type", .str "glomerulus")]], []⟩

/-- A state with one scaling layer, for the resize scenarios. -/
def stateRZ : LayersState :=
  { X := 200, Z := 200,
    layers := [("L", { name := "L", origin := ⟨0, 0, 0⟩, dimensions := ⟨200, 50, 200⟩ })],
    layer_stacks := [] }

/-- `stateRZ` after `resize` to `(0, 5)`: the X extent and X dimension
collapse to zero. -/
def stateRZ' : LayersState :=
  { X := 0, Z := 5,
    layers := [("L", { name := "L", origin := ⟨0, 0, 0⟩, dimensions := ⟨0, 50, 5⟩ })],
    layer_stacks := [] }

/-- Two layer sections declaring the same stack slot 0 of stack 1. -/
def entriesDup : List (String × JValue) :=
  [("a", .obj [("thickness", .num 10),
               ("stack", .obj [("stack_id", .num 1), ("position_in_stack", .num 0)])]),
   ("b", .obj [("thickness", .num 20),
               ("stack", .obj [("stack_id", .num 1), ("position_in_stack", .num 0)])])]

/-- An empty 200×200 state to load layer sections into. -/
def stateEmpty : LayersState := { X := 200, Z := 200 }

/-- A stack block declaring slot 2 of stack 1 with an explicit base
position. -/
def sfWit : List (String × JValue) :=
  [("stack_id", .num 1), ("position_in_stack", .num 2),
   ("position", .arr [.num 1, .num 5, .num 1])]

/-- A layer section carrying `sfWit`. -/
def fieldsWit : List (String × JValue) :=
  [("thickness", .num 10), ("stack", .obj sfWit)]

/-- A layer section declaring `volume_scale` but no `scale_from_layers`. -/
def parsedMissingSFL : List (String × JValue) :=
  [("granular", .obj [("volume_scale", .num 2)])]

/-- The state holding the layer whose section is `parsedMissingSFL`. -/
def stateMissingSFL : LayersState :=
  { X := 200, Z := 200,
    layers := [("granular", { name := "granular", origin := ⟨0, 0, 0⟩,
                              dimensions := ⟨200, 50, 200⟩ })],
    layer_stacks := [] }

/-- A well-formed placement section with exactly one density mode. -/
def secOneDensity : List (String × JValue) :=
  [("class", .str "scaffold.placement.ParticlePlacement"),
   ("layer", .str "granular_layer"), ("soma_radius", .num (5 / 2)),
   ("density", .num (3 / 10000))]

/-- A placement section whose single density mode is a `count` given as a
JSON string. -/
def secCountStr : List (String × JValue) :=
  [("class", .str "scaffold.placement.ParticlePlacement"),
   ("layer", .str "granular_layer"), ("soma_radius", .num 2),
   ("count", .str "10")]

/-- A placement section whose single density mode is a `density` given as a
JSON string. -/
def secDensityStr : List (String × JValue) :=
  [("class", .str "scaffold.placement.ParticlePlacement"),
   ("layer", .str "granular_layer"), ("soma_radius", .num 2),
   ("density", .str "10")]

/-- The attribute store `init_placement` produces for `secCountStr`: the
validated float 10 written for `count` is overwritten by the verbatim copy
of the raw string. -/
def placementCountStr : Placement :=
  ⟨[("name", .str "gc_placement"), ("layer", .str "granular_layer"),
    ("soma_radius", .num 2), ("radius", .num 2), ("count", .str "10")]⟩

/-- The attribute store `init_placement` produces for `secDensityStr`: the
validated float is kept because `density` is among the excluded keys. -/
def placementDensityStr : Placement :=
  ⟨[("name", .str "gc_placement"), ("layer", .str "granular_layer"),
    ("soma_radius", .num 2), ("radius", .num 2), ("density", .num 10)]⟩

/-! ### Basic lemmas about the embedding's primitives -/

@[simp]
theorem ok_bind {α β : Type} (a : α) (f : α → Except PyError β) :
    (Except.ok a >>= f) = f a := rfl

@[simp]
theorem error_bind {α β : Type} (e : PyError) (f : α → Except PyError β) :
    ((Except.error e : Except PyError α) >>= f) = .error e := rfl

@[simp]
theorem pure_eq_ok {α : Type} (a : α) : (pure a : Except PyError α) = .ok a := rfl

@[simp]
theorem dictGet_nil {κ β : Type} [DecidableEq κ] (k : κ) :
    dictGet ([] : List (κ × β)) k = none := rfl

@[simp]
theorem dictGet_cons {κ β : Type} [DecidableEq κ] (k2 : κ) (v : β) (rest : List (κ × β))
    (k : κ) : dictGet ((k2, v) :: rest) k = if k2 = k then some v else dictGet rest k := rfl

@[simp]
theorem dictGet_dictSet_self {κ β : Type} [DecidableEq κ] (d : List (κ × β)) (k : κ)
    (v : β) : dictGet (dictSet d k v) k = some v := by
  induction d with
  | nil => simp [dictSet]
  | cons p rest ih =>
    obtain ⟨k2, v2⟩ := p
    by_cases h : k2 = k <;> simp [dictSet, h, ih]

theorem dictGet_dictSet_ne {κ β : Type} [DecidableEq κ] (d : List (κ × β)) (k m : κ)
    (v : β) (h : m ≠ k) : dictGet (dictSet d k v) m = dictGet d m := by
  induction d with
  | nil => simp [dictSet, Ne.symm h]
  | cons p rest ih =>
    obtain ⟨k2, v2⟩ := p
    by_cases h2 : k2 = k
    · subst h2
      simp [dictSet, Ne.symm h]
    · simp [dictSet, h2, ih]

theorem mem_keys_dictSet {κ β : Type} [DecidableEq κ] (d : List (κ × β)) (k m : κ)
    (v : β) : m ∈ (dictSet d k v).map Prod.fst ↔ m ∈ d.map Prod.fst ∨ m = k := by
  induction d with
  | nil => simp [dictSet]
  | cons p rest ih =>
    obtain ⟨k2, v2⟩ := p
    by_cases h : k2 = k
    · subst h
      by_cases hm : k2 = m
      · simp [dictSet, hm]
      · simp [dictSet, hm]
        tauto
    · simp [dictSet, h, ih]
      tauto

theorem nodup_keys_dictSet {κ β : Type} [DecidableEq κ] (d : List (κ × β)) (k : κ)
    (v : β) (h : (d.map Prod.fst).Nodup) :
    ((dictSet d k v).map Prod.fst).Nodup := by
  induction d with
  | nil => simp [dictSet]
  | cons p rest ih =>
    obtain ⟨k2, v2⟩ := p
    simp only [List.map_cons, List.nodup_cons] at h
    by_cases h2 : k2 = k
    · subst h2
      simpa [dictSet, List.nodup_cons] using h
    · simp only [dictSet, if_neg h2, List.map_cons]
      refine List.Nodup.cons ?_ (ih h.2)
      intro hmem
      rcases (mem_keys_dictSet rest k k2 v).1 hmem with h3 | h3
      · exact h.1 h3
      · exact h2 h3

theorem fill_lookup_excluded (attrs conf : List (String × JValue))
    (excl : List String) (k : String) (hk : k ∈ excl) :
    dictGet (fill_configurable_class attrs conf excl) k = dictGet attrs k := by
  induction conf generalizing attrs with
  | nil => rfl
  | cons p rest ih =>
    by_cases h : p.1 ∈ excl
    · simp only [fill_configurable_class, if_pos h]
      exact ih attrs
    · have hne : k ≠ p.1 := fun he => h (he ▸ hk)
      simp only [fill_configurable_class, if_neg h]
      rw [ih, dictGet_dictSet_ne _ _ _ _ hne]

theorem fill_lookup_none (attrs conf : List (String × JValue))
    (excl : List String) (k : String) (hk : ∀ p ∈ conf, p.1 ≠ k) :
    dictGet (fill_configurable_class attrs conf excl) k = dictGet attrs k := by
  induction conf generalizing attrs with
  | nil => rfl
  | cons p rest ih =>
    have hp : p.1 ≠ k := hk p (List.mem_cons_self p rest)
    have hrest : ∀ q ∈ rest, q.1 ≠ k := fun q hq => hk q (List.mem_cons_of_mem p hq)
    by_cases h : p.1 ∈ excl
    · simp only [fill_configurable_class, if_pos h]
      exact ih attrs hrest
    · simp only [fill_configurable_class, if_neg h]
      rw [ih (dictSet attrs p.1 p.2) hrest, dictGet_dictSet_ne _ _ _ _ (Ne.symm hp)]

theorem fill_lookup_mem (attrs conf : List (String × JValue))
    (excl : List String) (k : String) (v : JValue)
    (hnd : (conf.map Prod.fst).Nodup) (hv : dictGet conf k = some v)
    (hk : k ∉ excl) :
    dictGet (fill_configurable_class attrs conf excl) k = some v := by
  induction conf generalizing attrs with
  | nil => simp at hv
  | cons p rest ih =>
    obtain ⟨k2, v2⟩ := p
    simp only [List.map_cons, List.nodup_cons] at hnd
    by_cases h2 : k2 = k
    · subst h2
      simp only [dictGet_cons, if_pos rfl] at hv
      have hv2 : v2 = v := by injection hv
      subst hv2
      simp only [fill_configurable_class, if_neg hk]
      rw [fill_lookup_none _ _ _ _ (fun q hq => by
        intro he
        exact hnd.1 (he ▸ List.mem_map_of_mem Prod.fst hq))]
      exact dictGet_dictSet_self _ _ _
    · simp only [dictGet_cons, if_neg h2] at hv
      by_cases h : k2 ∈ excl
      · simp only [fill_configurable_class, if_pos h]
        exact ih attrs hnd.2 hv
      · simp only [fill_configurable_class, if_neg h]
        exact ih (dictSet attrs k2 v2) hnd.2 hv

theorem lookupProfile_congr (a b : List (String × Layer)) (ns : List String)
    (h : ∀ n ∈ ns, dictGet a n = dictGet b n) :
    lookupProfile a ns = lookupProfile b ns := by
  induction ns with
  | nil => rfl
  | cons n rest ih =>
    have hn := h n (List.mem_cons_self n rest)
    have hrest := ih (fun m hm => h m (List.mem_cons_of_mem n hm))
    simp only [lookupProfile, hn, hrest]

theorem foldlM_ok_of_ok {σ α : Type} (f : σ → α → σ) (xs : List α) (s : σ) :
    xs.foldlM (fun st a => (Except.ok (f st a) : Except PyError σ)) s =
      .ok (xs.foldl f s) := by
  induction xs generalizing s with
  | nil => rfl
  | cons x rest ih => simp [List.foldlM_cons, ih]

/-! ### Lemmas about the stack-placement pass -/

theorem place_loop_sans (ns : List String) :
    ∀ (layers out : List (String × Layer)) (roof : ℚ),
      place_loop layers roof ns = .ok out →
      ∀ m, (dictGet out m).map layerSans = (dictGet layers m).map layerSans := by
  induction ns with
  | nil =>
    intro layers out roof hok m
    simp only [place_loop] at hok
    cases hok
    rfl
  | cons n rest ih =>
    intro layers out roof hok m
    simp only [place_loop] at hok
    cases h : dictGet layers n with
    | none => rw [h] at hok; exact Except.noConfusion hok
    | some l =>
      rw [h] at hok
      rw [ih _ _ _ hok m]
      by_cases hm : m = n
      · subst hm
        rw [dictGet_dictSet_self, h]
        rfl
      · rw [dictGet_dictSet_ne _ _ _ _ hm]

theorem place_loop_frame (ns : List String) :
    ∀ (layers out : List (String × Layer)) (roof : ℚ),
      place_loop layers roof ns = .ok out →
      ∀ m, m ∉ ns → dictGet out m = dictGet layers m := by
  induction ns with
  | nil =>
    intro layers out roof hok m _
    simp only [place_loop] at hok
    cases hok
    rfl
  | cons n rest ih =>
    intro layers out roof hok m hm
    simp only [place_loop] at hok
    cases h : dictGet layers n with
    | none => rw [h] at hok; exact Except.noConfusion hok
    | some l =>
      rw [h] at hok
      have hmn : m ≠ n := fun he => hm (he ▸ List.mem_cons_self n rest)
      have hmr : m ∉ rest := fun he => hm (List.mem_cons_of_mem n he)
      rw [ih _ _ _ hok m hmr, dictGet_dictSet_ne _ _ _ _ hmn]

theorem place_loop_profile (ns : List String) :
    ∀ (layers out : List (String × Layer)) (roof : ℚ),
      place_loop layers roof ns = .ok out → ns.Nodup →
      ∃ ts, lookupProfile out ns = some (roofProfile roof ts) := by
  induction ns with
  | nil =>
    intro layers out roof hok _
    exact ⟨[], rfl⟩
  | cons n rest ih =>
    intro layers out roof hok hnd
    simp only [place_loop] at hok
    cases h : dictGet layers n with
    | none => rw [h] at hok; exact Except.noConfusion hok
    | some l =>
      rw [h] at hok
      obtain ⟨hn, hndr⟩ := List.nodup_cons.mp hnd
      obtain ⟨ts, hts⟩ := ih _ _ _ hok hndr
      refine ⟨l.dimensions.y :: ts, ?_⟩
      have hout : dictGet out n = some (setOriginY l roof) := by
        rw [place_loop_frame rest _ _ _ hok n hn]
        exact dictGet_dictSet_self _ _ _
      simp only [lookupProfile, hout, hts, roofProfile, Option.map_some]
      rfl

theorem place_stack_sans (layers out : List (String × Layer)) (st : StackRec)
    (hok : place_stack layers st = .ok out) :
    ∀ m, (dictGet out m).map layerSans = (dictGet layers m).map layerSans := by
  unfold place_stack at hok
  cases hb : parse_stack_base_y st.position with
  | error e => rw [hb] at hok; exact Except.noConfusion hok
  | ok roof =>
    rw [hb] at hok
    exact place_loop_sans _ _ _ _ hok

theorem place_stack_frame (layers out : List (String × Layer)) (st : StackRec)
    (hok : place_stack layers st = .ok out) :
    ∀ m, m ∉ sortedStackNames st → dictGet out m = dictGet layers m := by
  unfold place_stack at hok
  cases hb : parse_stack_base_y st.position with
  | error e => rw [hb] at hok; exact Except.noConfusion hok
  | ok roof =>
    rw [hb] at hok
    exact place_loop_frame _ _ _ _ hok

theorem mem_sortedStackNames (st : StackRec) (m : String) :
    m ∈ sortedStackNames st ↔ m ∈ st.layers.map (fun q => q.2) :=
  ((List.perm_insertionSort _ st.layers).map (fun q => q.2)).mem_iff

theorem nodup_sortedStackNames (st : StackRec)
    (h : (st.layers.map (fun q => q.2)).Nodup) : (sortedStackNames st).Nodup := by
  unfold sortedStackNames
  exact (((List.perm_insertionSort (fun a b : ℚ × String => a.1 ≤ b.1)
    st.layers).map (fun q => q.2)).nodup_iff).mpr h

theorem stackedNames_cons (q : ℤ × StackRec) (rest : List (ℤ × StackRec)) :
    stackedNames (q :: rest) = q.2.layers.map (fun r => r.2) ++ stackedNames rest := rfl

theorem fold_place_sans (stks : List (ℤ × StackRec)) :
    ∀ (layers out : List (String × Layer)),
      stks.foldlM (fun ls p => place_stack ls p.2) layers = .ok out →
      ∀ m, (dictGet out m).map layerSans = (dictGet layers m).map layerSans := by
  induction stks with
  | nil =>
    intro layers out hok m
    cases hok
    rfl
  | cons q rest ih =>
    intro layers out hok m
    rw [List.foldlM_cons] at hok
    cases h : place_stack layers q.2 with
    | error e => rw [h] at hok; exact Except.noConfusion hok
    | ok l1 =>
      rw [h] at hok
      rw [ih _ _ hok m, place_stack_sans _ _ _ h m]

theorem fold_place_frame (stks : List (ℤ × StackRec)) :
    ∀ (layers out : List (String × Layer)),
      stks.foldlM (fun ls p => place_stack ls p.2) layers = .ok out →
      ∀ m, m ∉ stackedNames stks → dictGet out m = dictGet layers m := by
  induction stks with
  | nil =>
    intro layers out hok m _
    cases hok
    rfl
  | cons q rest ih =>
    intro layers out hok m hm
    rw [List.foldlM_cons] at hok
    rw [stackedNames_cons, List.mem_append] at hm
    push_neg at hm
    cases h : place_stack layers q.2 with
    | error e => rw [h] at hok; exact Except.noConfusion hok
    | ok l1 =>
      rw [h] at hok
      rw [ih _ _ hok m hm.2]
      exact place_stack_frame _ _ _ h m (fun hc => hm.1 ((mem_sortedStackNames q.2 m).1 hc))

theorem fold_place_profile (stks : List (ℤ × StackRec)) :
    ∀ (layers out : List (String × Layer)),
      (stackedNames stks).Nodup →
      stks.foldlM (fun ls p => place_stack ls p.2) layers = .ok out →
      ∀ p ∈ stks, ∃ base ts, parse_stack_base_y p.2.position = .ok base ∧
        lookupProfile out (sortedStackNames p.2) = some (roofProfile base ts) := by
  induction stks with
  | nil =>
    intro layers out _ _ p hp
    simp at hp
  | cons q rest ih =>
    intro layers out hnd hok p hp
    rw [List.foldlM_cons] at hok
    rw [stackedNames_cons] at hnd
    obtain ⟨hndq, hndr, hdisj⟩ := List.nodup_append.mp hnd
    cases h : place_stack layers q.2 with
    | error e => rw [h] at hok; exact Except.noConfusion hok
    | ok l1 =>
      rw [h] at hok
      rcases List.mem_cons.mp hp with rfl | hp2
      · unfold place_stack at h
        cases hb : parse_stack_base_y p.2.position with
        | error e => rw [hb] at h; exact Except.noConfusion h
        | ok base =>
          rw [hb] at h
          obtain ⟨ts, hts⟩ :=
            place_loop_profile _ _ _ _ h (nodup_sortedStackNames _ hndq)
          refine ⟨base, ts, rfl, ?_⟩
          rw [lookupProfile_congr out l1 _ (fun n hn =>
            fold_place_frame rest _ _ hok n
              (fun hc => hdisj ((mem_sortedStackNames p.2 n).1 hn) hc))]
          exact hts
      · exact ih l1 out hndr hok p hp2

/-! ### Lemmas about the produced stack profiles -/

theorem roofProfile_chain (ts : List ℚ) :
    ∀ r, List.Chain' (fun a b : ℚ × ℚ => a.1 + a.2 = b.1) (roofProfile r ts) := by
  induction ts with
  | nil => intro r; simp [roofProfile]
  | cons t rest ih =>
    intro r
    have h2 := ih (r + t)
    cases rest with
    | nil => simp [roofProfile]
    | cons t2 rest2 =>
      simp only [roofProfile] at h2 ⊢
      exact List.chain'_cons.mpr ⟨rfl, h2⟩

theorem roofProfile_head (r : ℚ) (ts : List ℚ) :
    ∀ x, (roofProfile r ts).head? = some x → x.1 = r := by
  cases ts with
  | nil => intro x h; simp [roofProfile] at h
  | cons t rest =>
    intro x h
    simp only [roofProfile, List.head?_cons] at h
    injection h with h2
    rw [← h2]

theorem roofProfile_fst_ge (ts : List ℚ) :
    ∀ r, (∀ t ∈ ts, 0 ≤ t) → ∀ x ∈ roofProfile r ts, r ≤ x.1 := by
  induction ts with
  | nil => intro r _ x hx; simp [roofProfile] at hx
  | cons t rest ih =>
    intro r h x hx
    simp only [roofProfile, List.mem_cons] at hx
    rcases hx with rfl | hx
    · exact le_refl r
    · have ht : 0 ≤ t := h t (List.mem_cons_self _ _)
      have h2 := ih (r + t) (fun u hu => h u (List.mem_cons_of_mem _ hu)) x hx
      linarith

theorem roofProfile_pairwise (ts : List ℚ) :
    ∀ r, (∀ t ∈ ts, 0 ≤ t) →
      List.Pairwise (fun a b : ℚ × ℚ => a.1 ≤ b.1) (roofProfile r ts) := by
  induction ts with
  | nil => intro r _; simp [roofProfile]
  | cons t rest ih =>
    intro r h
    simp only [roofProfile]
    refine List.Pairwise.cons ?_ (ih (r + t) (fun u hu => h u (List.mem_cons_of_mem _ hu)))
    intro x hx
    have ht : 0 ≤ t := h t (List.mem_cons_self _ _)
    have h2 := roofProfile_fst_ge rest (r + t)
      (fun u hu => h u (List.mem_cons_of_mem _ hu)) x hx
    show r ≤ x.1
    linarith

/-! ### Decomposition of `finalize_layers` into its passes -/

theorem stack_pass_fields (s s' : LayersState) (h : stack_pass s = .ok s') :
    s'.X = s.X ∧ s'.Z = s.Z ∧ s'.layer_stacks = s.layer_stacks ∧
      s.layer_stacks.foldlM (fun ls p => place_stack ls p.2) s.layers = .ok s'.layers := by
  unfold stack_pass at h
  cases hf : s.layer_stacks.foldlM (fun ls p => place_stack ls p.2) s.layers with
  | error e => rw [hf] at h; exact Except.noConfusion h
  | ok L =>
    rw [hf] at h
    simp only [ok_bind] at h
    injection h with h2
    subst h2
    exact ⟨rfl, rfl, rfl, rfl⟩

theorem volume_scale_pass_fields (cbrt : ℚ → ℚ) (parsed : List (String × JValue))
    (s s' : LayersState) (h : volume_scale_pass cbrt parsed s = .ok s') :
    s'.X = s.X ∧ s'.Z = s.Z ∧ s'.layer_stacks = s.layer_stacks ∧
      (s.layers.map (fun p => p.1)).foldlM
        (fun ls n => scale_layer cbrt parsed ls n) s.layers = .ok s'.layers := by
  unfold volume_scale_pass at h
  cases hf : (s.layers.map (fun p => p.1)).foldlM
      (fun ls n => scale_layer cbrt parsed ls n) s.layers with
  | error e => rw [hf] at h; exact Except.noConfusion h
  | ok L =>
    rw [hf] at h
    simp only [ok_bind] at h
    injection h with h2
    subst h2
    exact ⟨rfl, rfl, rfl, rfl⟩

theorem finalize_layers_split (cbrt : ℚ → ℚ) (parsed : List (String × JValue))
    (s s' : LayersState) (h : finalize_layers cbrt parsed s = .ok s') :
    ∃ s1, volume_scale_pass cbrt parsed s = .ok s1 ∧ stack_pass s1 = .ok s' := by
  unfold finalize_layers at h
  cases hv : volume_scale_pass cbrt parsed s with
  | error e => rw [hv] at h; exact Except.noConfusion h
  | ok s1 =>
    rw [hv] at h
    exact ⟨s1, rfl, h⟩

/-! ### The volume-scale pass only rewrites dimensions -/

theorem scale_layer_body_keeps (cbrt : ℚ → ℚ) (layers out : List (String × Layer))
    (lname : String) (layer : Layer) (config : JValue)
    (hl : dictGet layers lname = some layer)
    (hok : scale_layer_body cbrt layers lname layer config = .ok out) :
    ∀ m, (dictGet out m).map layerSansDims = (dictGet layers m).map layerSansDims := by
  unfold scale_layer_body at hok
  by_cases hvs : config.hasKey "volume_scale"
  · rw [if_neg (by simp [hvs])] at hok
    by_cases hsf : config.hasKey "scale_from_layers"
    · rw [if_neg (by simp [hsf])] at hok
      cases hd : scaled_dimensions cbrt config layers with
      | error e => rw [hd] at hok; exact Except.noConfusion hok
      | ok d =>
        rw [hd] at hok
        simp only [ok_bind] at hok
        injection hok with h2
        subst h2
        intro m
        by_cases hm : m = lname
        · subst hm
          rw [dictGet_dictSet_self, hl]
          rfl
        · rw [dictGet_dictSet_ne _ _ _ _ hm]
    · rw [if_pos (by simp [hsf])] at hok
      exact Except.noConfusion hok
  · rw [if_pos (by simp [hvs])] at hok
    injection hok with h2
    subst h2
    intro m
    rfl

theorem scale_layer_keeps (cbrt : ℚ → ℚ) (parsed : List (String × JValue))
    (layers out : List (String × Layer)) (lname : String)
    (hok : scale_layer cbrt parsed layers lname = .ok out) :
    ∀ m, (dictGet out m).map layerSansDims = (dictGet layers m).map layerSansDims := by
  unfold scale_layer at hok
  cases hl : dictGet layers lname with
  | none => rw [hl] at hok; exact Except.noConfusion hok
  | some layer =>
    rw [hl] at hok
    cases hc : dictGet parsed lname with
    | none => rw [hc] at hok; exact Except.noConfusion hok
    | some config =>
      rw [hc] at hok
      exact scale_layer_body_keeps cbrt layers out lname layer config hl hok

theorem fold_scale_keeps (cbrt : ℚ → ℚ) (parsed : List (String × JValue))
    (names : List String) :
    ∀ (layers out : List (String × Layer)),
      names.foldlM (fun ls n => scale_layer cbrt parsed ls n) layers = .ok out →
      ∀ m, (dictGet out m).map layerSansDims = (dictGet layers m).map layerSansDims := by
  induction names with
  | nil =>
    intro layers out hok m
    cases hok
    rfl
  | cons n rest ih =>
    intro layers out hok m
    rw [List.foldlM_cons] at hok
    cases h : scale_layer cbrt parsed layers n with
    | error e => rw [h] at hok; exact Except.noConfusion hok
    | ok l1 =>
      rw [h] at hok
      rw [ih _ _ hok m, scale_layer_keeps _ _ _ _ _ h m]

@[simp]
theorem map_ok {α β : Type} (a : α) (f : α → β) :
    (Except.ok a : Except PyError α).map f = .ok (f a) := rfl

@[simp]
theorem map_error {α β : Type} (e : PyError) (f : α → β) :
    (Except.error e : Except PyError α).map f = .error e := rfl

theorem roofProfile_snd (ts : List ℚ) :
    ∀ r, (roofProfile r ts).map Prod.snd = ts := by
  induction ts with
  | nil => intro r; rfl
  | cons t rest ih =>
    intro r
    simp only [roofProfile, List.map_cons, ih]

theorem originXZ_of_sansDims (oa ob : Option Layer)
    (h : oa.map layerSansDims = ob.map layerSansDims) :
    oa.map (fun l => (l.origin.x, l.origin.z)) =
      ob.map (fun l => (l.origin.x, l.origin.z)) := by
  cases oa with
  | none =>
    cases ob with
    | none => rfl
    | some b => exact Option.noConfusion h
  | some a =>
    cases ob with
    | none => exact Option.noConfusion h
    | some b =>
      simp only [Option.map_some', Option.some.injEq] at h ⊢
      have h2 : a.origin = b.origin := by
        have h3 := congrArg (fun t : String × Vec3 × Bool × Bool => t.2.1) h
        simpa [layerSansDims] using h3
      rw [h2]

theorem originXZ_of_sans (oa ob : Option Layer)
    (h : oa.map layerSans = ob.map layerSans) :
    oa.map (fun l => (l.origin.x, l.origin.z)) =
      ob.map (fun l => (l.origin.x, l.origin.z)) := by
  cases oa with
  | none =>
    cases ob with
    | none => rfl
    | some b => exact Option.noConfusion h
  | some a =>
    cases ob with
    | none => exact Option.noConfusion h
    | some b =>
      simp only [Option.map_some', Option.some.injEq] at h ⊢
      have hx := congrArg (fun t : String × ℚ × ℚ × Vec3 × Bool × Bool => t.2.1) h
      have hz := congrArg (fun t : String × ℚ × ℚ × Vec3 × Bool × Bool => t.2.2.1) h
      simp only [layerSans] at hx hz
      rw [hx, hz]

theorem volume_scale_pass_stacks_irrel (cbrt : ℚ → ℚ)
    (parsed : List (String × JValue)) (s : LayersState) (t' : List (ℤ × StackRec)) :
    volume_scale_pass cbrt parsed { s with layer_stacks := t' } =
      (volume_scale_pass cbrt parsed s).map (fun s1 => { s1 with layer_stacks := t' }) := by
  unfold volume_scale_pass
  cases hf : (s.layers.map (fun p => p.1)).foldlM
      (fun ls n => scale_layer cbrt parsed ls n) s.layers with
  | error e => rfl
  | ok L => rfl

theorem place_stack_agree (layers : List (String × Layer)) (st st' : StackRec)
    (h1 : st.layers = st'.layers)
    (h2 : parse_stack_base_y st.position = parse_stack_base_y st'.position) :
    place_stack layers st' = place_stack layers st := by
  unfold place_stack sortedStackNames
  rw [← h2, ← h1]

theorem fold_place_agree (stks stks' : List (ℤ × StackRec))
    (hrel : List.Forall₂
      (fun p q : ℤ × StackRec => p.2.layers = q.2.layers ∧
        parse_stack_base_y p.2.position = parse_stack_base_y q.2.position)
      stks stks') :
    ∀ layers, stks'.foldlM (fun ls p => place_stack ls p.2) layers =
      stks.foldlM (fun ls p => place_stack ls p.2) layers := by
  induction hrel with
  | nil => intro layers; rfl
  | cons hpq hrest ih =>
    intro layers
    rw [List.foldlM_cons, List.foldlM_cons,
      place_stack_agree layers _ _ hpq.1 hpq.2]
    cases h : place_stack layers _ with
    | error e => rfl
    | ok l1 =>
      simp only [ok_bind]
      exact ih l1

/-- **C1 (amended).** After `finalize_layers`, for every stack of a state
whose stacked layer names are pairwise distinct (true of every loaded
configuration, since a layer section registers its unique name at most
once): reading the stack's layers in ascending slot order off the final
state, each layer's top (`origin.y + thickness`) equals the next layer's
`origin.y` exactly; the first layer's vertical origin equals the stack's
base Y height, which is 0 when no explicit stack position was given; and,
provided every member layer's thickness is non-negative — a condition the
loader never enforces, see the counterexample — the vertical origins are
monotonically non-decreasing. -/
theorem finalize_layers_stack_geometry
    (cbrt : ℚ → ℚ) (parsed : List (String × JValue)) (s s' : LayersState)
    (hok : finalize_layers cbrt parsed s = .ok s')
    (hnd : (stackedNames s.layer_stacks).Nodup)
    (p : ℤ × StackRec) (hp : p ∈ s.layer_stacks) :
    ∃ prof base,
      parse_stack_base_y p.2.position = .ok base ∧
      stackProfile s'.layers p.2 = some prof ∧
      List.Chain' (fun a b : ℚ × ℚ => a.1 + a.2 = b.1) prof ∧
      (∀ x, prof.head? = some x → x.1 = base) ∧
      (p.2.position = none → base = 0) ∧
      ((∀ x ∈ prof, 0 ≤ x.2) →
        List.Pairwise (fun a b : ℚ × ℚ => a.1 ≤ b.1) prof) := by
  obtain ⟨s1, hv, hs⟩ := finalize_layers_split cbrt parsed s s' hok
  obtain ⟨_, _, hstk1, _⟩ := volume_scale_pass_fields cbrt parsed s s1 hv
  obtain ⟨_, _, _, hfold⟩ := stack_pass_fields s1 s' hs
  rw [hstk1] at hfold
  obtain ⟨base, ts, hb, hprof⟩ :=
    fold_place_profile s.layer_stacks s1.layers s'.layers hnd hfold p hp
  refine ⟨roofProfile base ts, base, hb, hprof, roofProfile_chain ts base,
    fun x hx => roofProfile_head base ts x hx, ?_, ?_⟩
  · intro hnone
    rw [hnone] at hb
    simp only [parse_stack_base_y] at hb
    injection hb with h2
    exact h2.symm
  · intro hpos
    apply roofProfile_pairwise
    intro t ht
    have : t ∈ (roofProfile base ts).map Prod.snd := by
      rw [roofProfile_snd]
      exact ht
    obtain ⟨x, hx, hxt⟩ := List.mem_map.mp this
    exact hxt ▸ hpos x hx

/-- Witness for C1: the two-layer stack of `stateGP` (thicknesses 50 and
30, no explicit base) finalizes with profile `[(0, 50), (50, 30)]`. -/
theorem finalize_layers_stack_geometry_witness :
    ∃ prof base,
      parse_stack_base_y stackGP.position = .ok base ∧
      stackProfile stateGP'.layers stackGP = some prof ∧
      List.Chain' (fun a b : ℚ × ℚ => a.1 + a.2 = b.1) prof ∧
      (∀ x, prof.head? = some x → x.1 = base) ∧
      (stackGP.position = none → base = 0) ∧
      ((∀ x ∈ prof, 0 ≤ x.2) →
        List.Pairwise (fun a b : ℚ × ℚ => a.1 ≤ b.1) prof) :=
  finalize_layers_stack_geometry (fun q => q) parsedGP stateGP stateGP' (by rfl)
    (by decide) (1, stackGP) (List.Mem.head _)

/-- Counterexample to C1 as stated: with a (never rejected) negative
configured thickness, the resolved vertical origins of a stack strictly
decrease, so they are not monotonically non-decreasing; the exact
top-equals-next-origin chaining still holds, as the amended claim says. -/
theorem finalize_layers_stack_monotone_cex :
    (finalize_layers (fun q => q) parsedNeg stateNeg).map
        (fun s2 => stackProfile s2.layers stackNeg) = .ok (some [(0, -1), (-1, 1)]) ∧
    ¬ List.Pairwise (fun a b : ℚ × ℚ => a.1 ≤ b.1) [((0 : ℚ), (-1 : ℚ)), (-1, 1)] := by
  constructor
  · rfl
  · decide

/-- **C10 (confirmed).** Stack placement during layer finalization modifies
only the vertical component of member layers' origins: `finalize_layers`
leaves the X and Z components of every layer's origin unchanged; replacing
the stacks by any stacks with the same slot assignments whose base
positions parse to the same base height — in particular, changing only the
X and Z components of an explicit stack base position — leaves every
resolved layer identical; and the base-height read itself only consults
entry 1 (the Y component) of an explicit position. -/
theorem finalize_layers_origin_xz_frame
    (cbrt : ℚ → ℚ) (parsed : List (String × JValue)) (s s' : LayersState)
    (hok : finalize_layers cbrt parsed s = .ok s') :
    (∀ m, (dictGet s'.layers m).map (fun l => (l.origin.x, l.origin.z)) =
          (dictGet s.layers m).map (fun l => (l.origin.x, l.origin.z))) ∧
    (∀ t' s'', List.Forall₂
        (fun p q : ℤ × StackRec => p.2.layers = q.2.layers ∧
          parse_stack_base_y p.2.position = parse_stack_base_y q.2.position)
        s.layer_stacks t' →
      finalize_layers cbrt parsed { s with layer_stacks := t' } = .ok s'' →
      s''.layers = s'.layers) ∧
    (∀ e0 e1 e2 f0 f2 : JValue,
      parse_stack_base_y (some (.arr [e0, e1, e2])) =
        parse_stack_base_y (some (.arr [f0, e1, f2]))) := by
  obtain ⟨s1, hv, hs⟩ := finalize_layers_split cbrt parsed s s' hok
  obtain ⟨_, _, hstk1, hvfold⟩ := volume_scale_pass_fields cbrt parsed s s1 hv
  obtain ⟨_, _, _, hsfold⟩ := stack_pass_fields s1 s' hs
  refine ⟨?_, ?_, ?_⟩
  · intro m
    have h2 := fold_place_sans s1.layer_stacks _ _ hsfold m
    have h1 := fold_scale_keeps cbrt parsed _ _ _ hvfold m
    exact (originXZ_of_sans _ _ h2).trans (originXZ_of_sansDims _ _ h1)
  · intro t' s'' hrel hok2
    obtain ⟨s1b, hv2, hs2⟩ := finalize_layers_split cbrt parsed _ s'' hok2
    rw [volume_scale_pass_stacks_irrel, hv] at hv2
    simp only [map_ok] at hv2
    injection hv2 with hv3
    have hrel2 : List.Forall₂
        (fun p q : ℤ × StackRec => p.2.layers = q.2.layers ∧
          parse_stack_base_y p.2.position = parse_stack_base_y q.2.position)
        s1.layer_stacks t' := by
      rw [hstk1]
      exact hrel
    obtain ⟨_, _, _, hsfold2⟩ := stack_pass_fields _ s'' hs2
    rw [← hv3] at hsfold2
    have hsfold2b : t'.foldlM (fun ls p => place_stack ls p.2) s1.layers =
        .ok s''.layers := hsfold2
    have heq : (Except.ok s''.layers : Except PyError (List (String × Layer))) =
        Except.ok s'.layers := by
      rw [← hsfold2b, fold_place_agree s1.layer_stacks t' hrel2 s1.layers, hsfold]
    injection heq
  · intro e0 e1 e2 f0 f2
    rfl

/-- Witness for C10 at `stateGP`: the X/Z origin components of `purk`
survive finalization, and an explicit stack base `[9, 0, 11]` produces the
same layers as the absent base (height 0), with bases `[9, 0, 11]` and
`[100, 0, -5]` parsing to the same height. -/
theorem finalize_layers_origin_xz_frame_witness :
    ((dictGet stateGP'.layers "purk").map (fun l => (l.origin.x, l.origin.z)) =
      (dictGet stateGP.layers "purk").map (fun l => (l.origin.x, l.origin.z))) ∧
    ({ stateGP' with layer_stacks :=
        [(1, ⟨stackGP.layers, some (.arr [.num 9, .num 0, .num 11])⟩)] } : LayersState).layers
      = stateGP'.layers ∧
    parse_stack_base_y (some (.arr [.num 9, .num 0, .num 11])) =
      parse_stack_base_y (some (.arr [.num 100, .num 0, .num (-5)])) := by
  have h := finalize_layers_origin_xz_frame (fun q => q) parsedGP stateGP stateGP' (by rfl)
  exact ⟨h.1 "purk",
    h.2.1 [(1, ⟨stackGP.layers, some (.arr [.num 9, .num 0, .num 11])⟩)]
      { stateGP' with layer_stacks :=
          [(1, ⟨stackGP.layers, some (.arr [.num 9, .num 0, .num 11])⟩)] }
      (List.Forall₂.cons ⟨rfl, rfl⟩ List.Forall₂.nil) (by rfl),
    h.2.2 (.num 9) (.num 0) (.num 11) (.num 100) (.num (-5))⟩

/-- Repeating `resize` with the same non-degenerate target leaves the scale
factor at `new / new = 1`. -/
theorem scaleFactor_of_ok (cur : ℚ) (o : Option ℚ) (ho : o ≠ some 0)
    (sx X2 : ℚ) (h : scaleFactor cur o = .ok (sx, X2)) :
    scaleFactor X2 o = .ok (1, X2) := by
  cases o with
  | none =>
    injection h with h2
    injection h2 with h3 h4
    rw [← h4]
    rfl
  | some v =>
    simp only [scaleFactor] at h ⊢
    by_cases hc : cur = 0
    · rw [if_pos hc] at h
      exact Except.noConfusion h
    · rw [if_neg hc] at h
      injection h with h2
      injection h2 with h3 h4
      have hv : v ≠ 0 := fun he => ho (he ▸ rfl)
      rw [← h4, if_neg hv, div_self hv]

/-- A second application of the per-layer resize body with unit factors and
the same extents is the identity. -/
theorem resizeLayer_idem (sx sz X2 Z2 : ℚ) (l : Layer) :
    resizeLayer 1 1 X2 Z2 (resizeLayer sx sz X2 Z2 l) = resizeLayer sx sz X2 Z2 l := by
  unfold resizeLayer
  by_cases hs : l.scaling <;> by_cases hc : l.xz_center <;>
    simp [hs, hc, mul_one]

/-- **C6 (amended).** `resize` is idempotent under immediate repetition with
the same arguments provided neither new extent is zero: a zero target makes
the repeated call divide by the (now zero) current extent and raise
`ZeroDivisionError`, see the counterexample. -/
theorem resize_repeat_eq (s : LayersState) (Xn Zn : Option ℚ)
    (hx : Xn ≠ some 0) (hz : Zn ≠ some 0) :
    (resize s Xn Zn).bind (fun s2 => resize s2 Xn Zn) = resize s Xn Zn := by
  cases hR : resize s Xn Zn with
  | error e => rfl
  | ok s2 =>
    show (Except.ok s2).bind (fun s3 => resize s3 Xn Zn) = .ok s2
    show resize s2 Xn Zn = .ok s2
    unfold resize at hR
    cases hXf : scaleFactor s.X Xn with
    | error e => rw [hXf] at hR; exact Except.noConfusion hR
    | ok px =>
      rw [hXf] at hR
      obtain ⟨sx, X2⟩ := px
      cases hZf : scaleFactor s.Z Zn with
      | error e => rw [hZf] at hR; exact Except.noConfusion hR
      | ok pz =>
        rw [hZf] at hR
        obtain ⟨sz, Z2⟩ := pz
        simp only [ok_bind] at hR
        injection hR with hR2
        have hs2X : s2.X = X2 := by rw [← hR2]
        have hs2Z : s2.Z = Z2 := by rw [← hR2]
        have hs2L : s2.layers =
            s.layers.map (fun p => (p.1, resizeLayer sx sz X2 Z2 p.2)) := by
          rw [← hR2]
        have h1 : scaleFactor s2.X Xn = .ok (1, s2.X) := by
          rw [hs2X]
          exact scaleFactor_of_ok s.X Xn hx sx X2 hXf
        have h2 : scaleFactor s2.Z Zn = .ok (1, s2.Z) := by
          rw [hs2Z]
          exact scaleFactor_of_ok s.Z Zn hz sz Z2 hZf
        have h3 : s2.layers.map (fun p => (p.1, resizeLayer 1 1 s2.X s2.Z p.2)) =
            s2.layers := by
          rw [hs2L, hs2X, hs2Z, List.map_map]
          refine List.map_congr_left ?_
          intro p _
          simp only [Function.comp]
          rw [resizeLayer_idem]
        unfold resize
        rw [h1, h2]
        simp only [ok_bind]
        rw [h3]

/-- Witness for C6 at a concrete state and a nonzero target. -/
theorem resize_repeat_eq_witness :
    (resize stateRZ (some 100) (some 50)).bind
        (fun s2 => resize s2 (some 100) (some 50)) =
      resize stateRZ (some 100) (some 50) :=
  resize_repeat_eq stateRZ (some 100) (some 50) (by decide) (by decide)

/-- Counterexample to C6 as stated: resizing to `X = 0` succeeds once but
raises `ZeroDivisionError` on repetition (`0 / 0`), so "twice" does not
yield the same layer geometry as "once". -/
theorem resize_repeat_zero_cex :
    resize stateRZ (some 0) (some 5) = .ok stateRZ' ∧
    (resize stateRZ (some 0) (some 5)).bind (fun s2 => resize s2 (some 0) (some 5)) =
      .error .zeroDivisionError ∧
    (Except.error PyError.zeroDivisionError : Except PyError LayersState) ≠ .ok stateRZ' :=
  ⟨by rfl, by rfl, fun h => Except.noConfusion h⟩

/-- `int()` applied to an integral JSON number is that integer. -/
theorem pyInt_intCast (k : ℤ) : pyInt (.num (k : ℚ)) = .ok k := by
  simp [pyInt, Rat.num_intCast, Rat.den_intCast]

/-- **C7 (amended).** In every successfully loaded configuration each
integer slot of a stack is occupied by exactly one layer, and a layer
declaring a stack membership is recorded at its declared slot — but a layer
declaring an already-occupied slot silently replaces the previous occupant
(Python dict assignment, config.py line 624) rather than failing, so an
earlier layer with the same slot does not appear in the stack (see the
counterexample); at most one layer contributes an explicit base position to
a given stack, a second explicit base position for the same stack failing
the load with the duplicate-positioning error. -/
theorem init_layer_stack_slot_semantics
    (s : LayersState) (name : String) (fields sf : List (String × JValue))
    (t slot : ℚ) (k : ℤ)
    (hth : dictGet fields "thickness" = some (.num t))
    (hpos : dictGet fields "position" = none)
    (hxz : dictGet fields "xz_scale" = none)
    (hstack : dictGet fields "stack" = some (.obj sf))
    (hsid : dictGet sf "stack_id" = some (.num (k : ℚ)))
    (hslot : dictGet sf "position_in_stack" = some (.num slot)) :
    ((∃ p0, dictGet sf "position" = some p0) →
      ∀ st0, dictGet s.layer_stacks k = some st0 → st0.position.isSome →
        init_layer s name (.obj fields) =
          .error (.exception ("Duplicate positioning attribute found for stack with id \x27"
            ++ toString k ++ "\x27"))) ∧
    (∀ s', init_layer s name (.obj fields) = .ok s' →
      ∃ st', dictGet s'.layer_stacks k = some st' ∧
        st'.layers = dictSet ((dictGet s.layer_stacks k).getD ⟨[], none⟩).layers slot name ∧
        dictGet st'.layers slot = some name ∧
        ((((dictGet s.layer_stacks k).getD ⟨[], none⟩).layers.map Prod.fst).Nodup →
          (st'.layers.map Prod.fst).Nodup)) := by
  constructor
  · rintro ⟨p0, hp0⟩ st0 hst0 hpos0
    simp [init_layer, register_stack, JValue.hasKey, JValue.get?, hth, hpos, hxz, hstack,
      hsid, hslot, hp0, hst0, hpos0, pyInt_intCast, parsePosition, expectNum, pyFloat]
  · intro s' hok
    cases hq : dictGet sf "position" with
    | none =>
      cases hst : dictGet s.layer_stacks k with
      | none =>
        simp [init_layer, register_stack, JValue.hasKey, JValue.get?, hth, hpos, hxz,
          hstack, hsid, hslot, hq, hst, pyInt_intCast, parsePosition, parseXzScale, expectNum,
          pyFloat] at hok
        refine ⟨⟨dictSet ([] : List (ℚ × String)) slot name, none⟩, ?_, ?_, ?_, ?_⟩
        · rw [← hok]
          simp [hst]
        · simp [hst]
        · exact dictGet_dictSet_self _ _ _
        · intro hnd
          exact nodup_keys_dictSet _ _ _ (by simp [hst])
      | some st0 =>
        simp [init_layer, register_stack, JValue.hasKey, JValue.get?, hth, hpos, hxz,
          hstack, hsid, hslot, hq, hst, pyInt_intCast, parsePosition, parseXzScale, expectNum,
          pyFloat] at hok
        refine ⟨⟨dictSet st0.layers slot name, st0.position⟩, ?_, ?_, ?_, ?_⟩
        · rw [← hok]
          simp [hst]
        · simp [hst]
        · exact dictGet_dictSet_self _ _ _
        · intro hnd
          exact nodup_keys_dictSet _ _ _ (by simpa [hst] using hnd)
    | some p0 =>
      cases hst : dictGet s.layer_stacks k with
      | none =>
        simp [init_layer, register_stack, JValue.hasKey, JValue.get?, hth, hpos, hxz,
          hstack, hsid, hslot, hq, hst, pyInt_intCast, parsePosition, parseXzScale, expectNum,
          pyFloat] at hok
        refine ⟨⟨dictSet ([] : List (ℚ × String)) slot name, some p0⟩, ?_, ?_, ?_, ?_⟩
        · rw [← hok]
          simp [hst]
        · simp [hst]
        · exact dictGet_dictSet_self _ _ _
        · intro hnd
          exact nodup_keys_dictSet _ _ _ (by simp [hst])
      | some st0 =>
        cases hpos0 : st0.position with
        | some q0 =>
          simp [init_layer, register_stack, JValue.hasKey, JValue.get?, hth, hpos, hxz,
            hstack, hsid, hslot, hq, hst, hpos0, pyInt_intCast, parsePosition, parseXzScale, expectNum,
            pyFloat] at hok
        | none =>
          simp [init_layer, register_stack, JValue.hasKey, JValue.get?, hth, hpos, hxz,
            hstack, hsid, hslot, hq, hst, hpos0, pyInt_intCast, parsePosition, parseXzScale, expectNum,
            pyFloat] at hok
          refine ⟨⟨dictSet st0.layers slot name, some p0⟩, ?_, ?_, ?_, ?_⟩
          · rw [← hok]
            simp [hst]
          · simp [hst]
          · exact dictGet_dictSet_self _ _ _
          · intro hnd
            exact nodup_keys_dictSet _ _ _ (by simpa [hst] using hnd)

/-- Witness for C7: loading the single layer section `fieldsWit` into the
empty state registers "L" at slot 2 of stack 1. -/
theorem init_layer_stack_slot_semantics_witness :
    ∃ st',
      dictGet
          (LayersState.mk 200 200
            [("L", Layer.mk "L" ⟨0, 0, 0⟩ ⟨200, 10, 200⟩ true false)]
            [(1, ⟨[(2, "L")], some (.arr [.num 1, .num 5, .num 1])⟩)]).layer_stacks 1 =
        some st' ∧
      st'.layers =
        dictSet ((dictGet stateEmpty.layer_stacks 1).getD ⟨[], none⟩).layers 2 "L" ∧
      dictGet st'.layers 2 = some "L" ∧
      ((((dictGet stateEmpty.layer_stacks 1).getD ⟨[], none⟩).layers.map Prod.fst).Nodup →
        (st'.layers.map Prod.fst).Nodup) :=
  (init_layer_stack_slot_semantics stateEmpty "L" fieldsWit sfWit 10 2 1
      rfl rfl rfl rfl (by norm_num [sfWit]) rfl).2
    (LayersState.mk 200 200
      [("L", Layer.mk "L" ⟨0, 0, 0⟩ ⟨200, 10, 200⟩ true false)]
      [(1, ⟨[(2, "L")], some (.arr [.num 1, .num 5, .num 1])⟩)])
    (by rfl)

/-- Counterexample to C7 as stated: two layer sections both declaring slot
0 of stack 1 load successfully, and the final stack maps slot 0 to the
later layer only — layer "a" declared membership but appears nowhere. -/
theorem init_layers_pass_slot_overwrite_cex :
    (init_layers_pass stateEmpty entriesDup).map
        (fun s2 => s2.layer_stacks.map (fun p => (p.1, p.2.layers))) =
      .ok [(1, [(0, "b")])] ∧
    "a" ∉ ([((0 : ℚ), "b")].map Prod.snd) :=
  ⟨by rfl, by decide⟩

/-- Folding an always-succeeding, event-appending callback accumulates the
state fold and the event list side by side. -/
theorem trace_foldl {τ : Type} (g : String → JValue → τ → τ) (ev : String → LoadEvent)
    (entries : List (String × JValue)) :
    ∀ (t : τ) (tr : List LoadEvent),
      entries.foldlM (fun (st : τ × List LoadEvent) p =>
          (Except.ok (g p.1 p.2 st.1, st.2 ++ [ev p.1]) :
            Except PyError (τ × List LoadEvent))) (t, tr) =
        .ok (entries.foldl (fun st p => g p.1 p.2 st) t,
             tr ++ entries.map (fun p => ev p.1)) := by
  induction entries with
  | nil => intro t tr; simp
  | cons p rest ih =>
    intro t tr
    rw [List.foldlM_cons]
    simp only [ok_bind]
    rw [ih]
    simp [List.append_assoc]

/-- **C3 (confirmed).** For every collection driven through `load_attr`,
with arbitrary (non-raising) callbacks instrumented to record their calls:
the produced call trace is exactly the `init` calls, once per entry in
document order, followed by the finalize calls — the collection-level
finalize exactly once when `single`, otherwise one per entry in document
order. In particular no finalize call precedes any `init` call. -/
theorem load_attr_call_order {τ : Type} (entries : List (String × JValue))
    (attr : String) (node : Option String)
    (g h : String → JValue → τ → τ) (gAll : τ → τ)
    (single : Bool) (t0 : τ) :
    (load_attr (τ × List LoadEvent) (.obj [(attr, .obj entries)]) attr node
        (fun n c p => .ok (g n c p.1, p.2 ++ [.initCall n]))
        (some (fun n c p => .ok (h n c p.1, p.2 ++ [.finalizeEachCall n])))
        (some (fun p => .ok (gAll p.1, p.2 ++ [.finalizeAllCall])))
        single (t0, [])).map Prod.snd
      = .ok ((entries.map (fun p => LoadEvent.initCall p.1)) ++
          (if single then [LoadEvent.finalizeAllCall]
           else entries.map (fun p => LoadEvent.finalizeEachCall p.1))) := by
  unfold load_attr
  simp only [JValue.get?, dictGet_cons, eq_self_iff_true, if_true]
  rw [trace_foldl g LoadEvent.initCall entries t0 []]
  simp only [ok_bind, List.nil_append]
  cases single with
  | true => simp
  | false =>
    simp only [Bool.false_eq_true, if_false]
    rw [trace_foldl h LoadEvent.finalizeEachCall entries]
    simp

/-- **C5 (code bug).** Evaluating `finalize_connection` on a connection type
named `pf_goc` whose `from_cell_types` references the undeclared cell type
`glomerulus`: the raised message embeds the literal, never-formatted
template `connection_types.{}` — it does not name the connection type's
dotted path `connection_types.pf_goc` as the spec requires (the sibling
`init_connection`, config.py line 683, does format the name in). -/
theorem finalize_connection_unformatted_path :
    finalize_connection connPfGoc ["granule"] =
      .error (.exception
        "Unknown cell type \x27glomerulus\x27 in \x27connection_types.\x7b\x7d.from_cell_types\x27") ∧
    ("Unknown cell type \x27glomerulus\x27 in \x27connection_types.\x7b\x7d.from_cell_types\x27" ≠
      "Unknown cell type \x27glomerulus\x27 in \x27connection_types.pf_goc.from_cell_types\x27") :=
  ⟨by rfl, by decide⟩

/-- **C8 (code bug).** A layer section declaring `volume_scale` but no
`scale_from_layers` makes `finalize_layers` fail with `NameError` — the
`ConfigurationException` the claim (and the source's own intent, lines
856-861) describe is never constructed, because its message formats the
unbound variable `name`. -/
theorem finalize_layers_missing_scale_nameerror :
    finalize_layers (fun q => q) parsedMissingSFL stateMissingSFL =
      .error (.nameError "name") := by rfl

/-- `scale_from_layers` arrays of plain strings parse to their names. -/
theorem expectStrs_strs (names : List String) :
    expectStrs (names.map JValue.str) = .ok names := by
  induction names with
  | nil => rfl
  | cons n rest ih => simp [expectStrs, ih]

/-- **C2 (confirmed).** For a layer with a volume-scale constraint,
`finalize_layers`' per-layer step `scale_layer` sets the layer's dimensions
to `Y * dimension_ratios` elementwise, where the ratio vector has been
normalized so its Y component is `r1 / r1 = 1` and
`Y = cbrt (V / (volume_scale * prod normalized_ratios))` with `V` the summed
volume of the referenced layers and `cbrt` the (abstracted) floating-point
cube root of config.py line 900; and whenever `cbrt` is exact at that
argument, the resolved layer's volume is exactly `V / volume_scale` — in
particular `V / 2` for `volume_scale = 2`. -/
theorem scale_layer_volume_spec
    (cbrt : ℚ → ℚ) (parsed : List (String × JValue)) (layers : List (String × Layer))
    (lname : String) (l : Layer) (cf : List (String × JValue))
    (vs r0 r1 r2 V y : ℚ) (refs : List String)
    (hl : dictGet layers lname = some l)
    (hcf : dictGet parsed lname = some (.obj cf))
    (hvs : dictGet cf "volume_scale" = some (.num vs))
    (hsf : dictGet cf "scale_from_layers" = some (.arr (refs.map JValue.str)))
    (hV : refVolumes layers refs = .ok V)
    (hr : dictGet cf "volume_dimension_ratio" = some (.arr [.num r0, .num r1, .num r2]))
    (hr1 : r1 ≠ 0)
    (hy : y = cbrt (V / (vs * (r0 / r1 * (r1 / r1 * (r2 / r1 * 1)))))) :
    scale_layer cbrt parsed layers lname =
      .ok (dictSet layers lname { l with dimensions := ⟨y * (r0 / r1), y, y * (r2 / r1)⟩ }) ∧
    (y ^ 3 = V / (vs * (r0 / r1 * (r1 / r1 * (r2 / r1 * 1)))) → vs ≠ 0 → r0 ≠ 0 → r2 ≠ 0 →
      Layer.volume { l with dimensions := ⟨y * (r0 / r1), y, y * (r2 / r1)⟩ } = V / vs) := by
  have hd : scaled_dimensions cbrt (.obj cf) layers =
      .ok ⟨y * (r0 / r1), y * (r1 / r1), y * (r2 / r1)⟩ := by
    unfold scaled_dimensions
    simp only [JValue.get?, hsf, hr, hvs, Option.getD_some, expectStrList,
      expectStrs_strs, ok_bind, expectNumList, expectNums, expectNum, pure_eq_ok, hV]
    simp [List.prod_cons, List.prod_nil, hy]
  constructor
  · unfold scale_layer scale_layer_body
    rw [hl, hcf]
    simp only [JValue.hasKey, JValue.get?, hvs, hsf, Option.isSome_some, Bool.not_true,
      Bool.false_eq_true, if_false, hd, ok_bind]
    rw [div_self hr1, mul_one]
  · intro hcube hvs0 hr0 hr2
    simp only [Layer.volume]
    have h5 : (y * (r0 / r1)) * y * (y * (r2 / r1)) =
        y ^ 3 * (r0 / r1 * (r1 / r1 * (r2 / r1 * 1))) := by
      rw [div_self hr1]
      ring
    rw [h5, hcube]
    field_simp
    ring

/-- Witness for C2: layer `B` scaled from `A` (volume 16) with
`volume_scale = 2` and unit ratios resolves to a 2×2×2 cube of volume
`16 / 2 = 8`. -/
theorem scale_layer_volume_spec_witness :
    scale_layer (fun _ => 2) parsedVS layersVS "B" =
      .ok (dictSet layersVS "B"
        { layerScaledB with dimensions := ⟨2 * ((1 : ℚ) / 1), 2, 2 * ((1 : ℚ) / 1)⟩ }) ∧
    Layer.volume
        { layerScaledB with dimensions := ⟨2 * ((1 : ℚ) / 1), 2, 2 * ((1 : ℚ) / 1)⟩ } =
      16 / 2 := by
  have h := scale_layer_volume_spec (fun _ => 2) parsedVS layersVS "B" layerScaledB
    [("volume_scale", .num 2), ("scale_from_layers", .arr [.str "A"]),
     ("volume_dimension_ratio", .arr [.num 1, .num 1, .num 1])]
    2 1 1 1 16 2 ["A"] rfl rfl rfl rfl rfl rfl (by norm_num) rfl
  exact ⟨h.1, h.2 (by norm_num) (by norm_num) (by norm_num) (by norm_num)⟩

/-- If the class is known, a layer is given, and (for non-entity types) the
soma radius validates, the pre-density stage of placement init succeeds. -/
theorem init_placement_pre_ok
    (kc : List String) (ie : Bool) (sec : List (String × JValue)) (ct c : String)
    (hclass : dictGet sec "class" = some (.str c))
    (hc : c ∈ kc)
    (hlayer : (dictGet sec "layer").isSome)
    (hsoma : ie = false →
      ∃ q, assert_attr_float (.obj sec) "soma_radius"
        ("cell_types." ++ ct ++ ".placement") = .ok q) :
    ∃ a2, init_placement_pre kc ie (.obj sec) ct = .ok a2 := by
  obtain ⟨lv, hlv⟩ := Option.isSome_iff_exists.mp hlayer
  have hcont : kc.contains c = true := by simpa using hc
  cases ie with
  | true =>
    unfold init_placement_pre
    simp [assert_attr, JValue.get?, hclass, hlv, hcont, hc]
  | false =>
    obtain ⟨q, hq⟩ := hsoma rfl
    unfold init_placement_pre
    simp [assert_attr, JValue.get?, hclass, hlv, hcont, hc, hq]

/-- When the number of density-like attributes present is not exactly one,
the density stage fails with the "Exactly one of ..." error. -/
theorem init_placement_density_err
    (sec : List (String × JValue)) (node : String)
    (hne : (densityAttrs.filter (fun a => (JValue.obj sec).hasKey a)).length ≠ 1) :
    ∀ attrs, init_placement_density (.obj sec) node attrs =
      .error (.configurationException
        ("Exactly one of " ++ String.intercalate ", " densityAttrs ++
          " required in " ++ node ++ ".")) := by
  intro attrs
  unfold init_placement_density assert_strictly_one
  cases hfil : densityAttrs.filter (fun a => (JValue.obj sec).hasKey a) with
  | nil => rfl
  | cons a rest =>
    cases rest with
    | nil => exact absurd (by rw [hfil]; rfl) hne
    | cons b rest2 => rfl

/-- When exactly one density-like attribute is present, it validates as a
float, and ratio attributes come with a reference, the density stage succeeds. -/
theorem init_placement_density_ok
    (sec : List (String × JValue)) (node : String) (a : String)
    (hfil : densityAttrs.filter (fun x => (JValue.obj sec).hasKey x) = [a])
    (hfloat : ∀ x ∈ densityAttrs, ∀ v, dictGet sec x = some v → ∃ q, pyFloat v = .ok q)
    (hrel : ∀ x ∈ ["placement_count_ratio", "density_ratio"],
      (dictGet sec x).isSome → (dictGet sec "placement_relative_to").isSome) :
    ∀ attrs, ∃ a4, init_placement_density (.obj sec) node attrs = .ok a4 := by
  intro attrs
  have ha : a ∈ densityAttrs.filter (fun x => (JValue.obj sec).hasKey x) := by
    rw [hfil]; exact List.mem_cons_self _ _
  have ha2 := List.mem_filter.mp ha
  obtain ⟨v, hv0⟩ := Option.isSome_iff_exists.mp ha2.2
  have hv : dictGet sec a = some v := hv0
  obtain ⟨q, hq⟩ := hfloat a ha2.1 v hv
  unfold init_placement_density assert_strictly_one
  rw [hfil]
  simp only [ok_bind, JValue.get?, hv, Option.getD_some, assert_float, hq, pure_eq_ok]
  by_cases hra : a = "placement_count_ratio" ∨ a = "density_ratio"
  · have hpr : (dictGet sec "placement_relative_to").isSome := by
      rcases hra with h1 | h1
      · exact hrel "placement_count_ratio" (by decide) (by rw [← h1, hv]; rfl)
      · exact hrel "density_ratio" (by decide) (by rw [← h1, hv]; rfl)
    obtain ⟨rv, hrv⟩ := Option.isSome_iff_exists.mp hpr
    simp [hra, assert_attr, JValue.get?, hrv]
  · simp [hra]

/-- After a successful density stage, the validated float is stored under the
single density-like attribute that was present. -/
theorem init_placement_density_lookup
    (sec : List (String × JValue)) (node : String) (attrs a4 : List (String × JValue))
    (hden : init_placement_density (.obj sec) node attrs = .ok a4)
    (a : String) (ha : a ∈ densityAttrs) (v : JValue) (q : ℚ)
    (hv : dictGet sec a = some v) (hq : pyFloat v = .ok q) :
    dictGet a4 a = some (.num q) := by
  unfold init_placement_density assert_strictly_one at hden
  cases hfil : densityAttrs.filter (fun x => (JValue.obj sec).hasKey x) with
  | nil => rw [hfil] at hden; exact Except.noConfusion hden
  | cons a' rest =>
    cases rest with
    | cons b rest2 => rw [hfil] at hden; exact Except.noConfusion hden
    | nil =>
      rw [hfil] at hden
      have haa : a = a' := by
        have hmem : a ∈ densityAttrs.filter (fun x => (JValue.obj sec).hasKey x) :=
          List.mem_filter.mpr ⟨ha, by simp [JValue.hasKey, JValue.get?, hv]⟩
        rw [hfil] at hmem
        simpa using hmem
      subst haa
      simp only [ok_bind, JValue.get?, hv, Option.getD_some, assert_float, hq,
        pure_eq_ok] at hden
      have hne : a ≠ "placement_relative_to" := by
        rcases (by simpa [densityAttrs] using ha :
          a = "density" ∨ a = "planar_density" ∨ a = "placement_count_ratio" ∨
            a = "density_ratio" ∨ a = "count") with h | h | h | h | h <;>
          (subst h; decide)
      by_cases hra : a = "placement_count_ratio" ∨ a = "density_ratio"
      · rw [if_pos hra] at hden
        cases hrv : assert_attr (.obj sec) "placement_relative_to" node with
        | error e =>
          rw [hrv] at hden
          exact Except.noConfusion hden
        | ok rv =>
          rw [hrv] at hden
          simp only [ok_bind, pure_eq_ok] at hden
          injection hden with hden2
          rw [← hden2, dictGet_dictSet_ne _ _ _ _ hne]
          exact dictGet_dictSet_self _ _ _
      · rw [if_neg hra] at hden
        injection hden with hden2
        rw [← hden2]
        exact dictGet_dictSet_self _ _ _

/-- C4: given a placement section whose class is known and whose layer and
soma-radius requirements are met, placement initialization succeeds iff
exactly one of density, planar_density, placement_count_ratio, density_ratio,
count is present; otherwise it raises the "Exactly one of ..."
configuration error. -/
theorem init_placement_density_mode
    (kc : List String) (ie : Bool) (sec : List (String × JValue)) (ct c : String)
    (hclass : dictGet sec "class" = some (.str c))
    (hc : c ∈ kc)
    (hlayer : (dictGet sec "layer").isSome)
    (hsoma : ie = false →
      ∃ q, assert_attr_float (.obj sec) "soma_radius"
        ("cell_types." ++ ct ++ ".placement") = .ok q)
    (hfloat : ∀ x ∈ densityAttrs, ∀ v, dictGet sec x = some v → ∃ q, pyFloat v = .ok q)
    (hrel : ∀ x ∈ ["placement_count_ratio", "density_ratio"],
      (dictGet sec x).isSome → (dictGet sec "placement_relative_to").isSome) :
    (∃ p, init_placement kc ie (.obj sec) ct = .ok p) ↔
      (densityAttrs.filter (fun x => (JValue.obj sec).hasKey x)).length = 1 := by
  obtain ⟨a2, ha2⟩ := init_placement_pre_ok kc ie sec ct c hclass hc hlayer hsoma
  constructor
  · rintro ⟨p, hp⟩
    by_contra hne
    have herr := init_placement_density_err sec ("cell_types." ++ ct ++ ".placement") hne a2
    simp only [init_placement, ha2, ok_bind, herr, error_bind] at hp
    exact Except.noConfusion hp
  · intro hlen
    obtain ⟨a, hfil⟩ := List.length_eq_one.mp hlen
    obtain ⟨a4, ha4⟩ := init_placement_density_ok sec
      ("cell_types." ++ ct ++ ".placement") a hfil hfloat hrel a2
    refine ⟨⟨fill_configurable_class a4 sec placementExcluded⟩, ?_⟩
    simp only [init_placement, ha2, ok_bind, ha4]

/-- C9: after successful placement initialization, a raw count attribute is
copied verbatim into the placement attributes, while the other four
density-like attributes are stored as their validated float values. -/
theorem init_placement_count_verbatim
    (kc : List String) (ie : Bool) (sec : List (String × JValue)) (ct : String)
    (p : Placement)
    (hnd : (sec.map Prod.fst).Nodup)
    (hok : init_placement kc ie (.obj sec) ct = .ok p) :
    (∀ v, dictGet sec "count" = some v → dictGet p.attrs "count" = some v) ∧
    (∀ a, (a = "density" ∨ a = "planar_density" ∨ a = "placement_count_ratio" ∨
        a = "density_ratio") →
      ∀ v q, dictGet sec a = some v → pyFloat v = .ok q →
        dictGet p.attrs a = some (.num q)) := by
  simp only [init_placement] at hok
  cases hpre : init_placement_pre kc ie (.obj sec) ct with
  | error e => rw [hpre] at hok; exact Except.noConfusion hok
  | ok a2 =>
    rw [hpre] at hok
    simp only [ok_bind] at hok
    cases hden : init_placement_density (.obj sec)
        ("cell_types." ++ ct ++ ".placement") a2 with
    | error e => rw [hden] at hok; exact Except.noConfusion hok
    | ok a4 =>
      rw [hden] at hok
      simp only [ok_bind] at hok
      injection hok with hok2
      constructor
      · intro v hv
        rw [← hok2]
        exact fill_lookup_mem _ _ _ _ _ hnd hv (by decide)
      · intro a haor v q hv hq
        rw [← hok2]
        have hexcl : a ∈ placementExcluded := by
          rcases haor with h | h | h | h <;> (subst h; decide)
        have hadens : a ∈ densityAttrs := by
          rcases haor with h | h | h | h <;> (subst h; decide)
        show dictGet (fill_configurable_class a4 sec placementExcluded) a = some (.num q)
        rw [fill_lookup_excluded _ _ _ _ hexcl]
        exact init_placement_density_lookup sec _ a2 a4 hden a hadens v q hv hq

/-- Witness for C4: a section with exactly one density attribute passes
`init_placement`, with every hypothesis discharged on concrete data. -/
theorem init_placement_density_mode_witness :
    ∃ p, init_placement ["scaffold.placement.ParticlePlacement"] false
      (.obj secOneDensity) "granule_cell" = .ok p :=
  (init_placement_density_mode ["scaffold.placement.ParticlePlacement"] false
    secOneDensity "granule_cell" "scaffold.placement.ParticlePlacement"
    rfl (by decide) rfl
    (fun _ => ⟨5 / 2, rfl⟩)
    (by
      intro x hx v hv
      simp only [densityAttrs, List.mem_cons, List.not_mem_nil, or_false] at hx
      rcases hx with rfl | rfl | rfl | rfl | rfl
      · rw [show dictGet secOneDensity "density" =
            some (JValue.num (3 / 10000)) from rfl] at hv
        injection hv with h
        exact ⟨3 / 10000, by rw [← h]; rfl⟩
      · rw [show dictGet secOneDensity "planar_density" = none from rfl] at hv
        exact Option.noConfusion hv
      · rw [show dictGet secOneDensity "placement_count_ratio" = none from rfl] at hv
        exact Option.noConfusion hv
      · rw [show dictGet secOneDensity "density_ratio" = none from rfl] at hv
        exact Option.noConfusion hv
      · rw [show dictGet secOneDensity "count" = none from rfl] at hv
        exact Option.noConfusion hv)
    (by
      intro x hx h
      rcases List.mem_cons.mp hx with rfl | hx2
      · rw [show dictGet secOneDensity "placement_count_ratio" = none from rfl] at h
        simp at h
      · rcases List.mem_singleton.mp hx2 with rfl
        rw [show dictGet secOneDensity "density_ratio" = none from rfl] at h
        simp at h)).mpr rfl

/-- Witness for C9: on concrete sections, a string `count` survives verbatim
in the placement attributes, while a string `density` is replaced by its
validated float. -/
theorem init_placement_count_verbatim_witness :
    dictGet placementCountStr.attrs "count" = some (.str "10") ∧
    dictGet placementDensityStr.attrs "density" = some (.num 10) :=
  ⟨(init_placement_count_verbatim ["scaffold.placement.ParticlePlacement"] false
      secCountStr "gc" placementCountStr (by decide) rfl).1 (.str "10") rfl,
   (init_placement_count_verbatim ["scaffold.placement.ParticlePlacement"] false
      secDensityStr "gc" placementDensityStr (by decide) rfl).2 "density"
      (Or.inl rfl) (.str "10") 10 rfl rfl⟩
